import Mathlib

/-!
# stress-ng: futex and NUMA stressors

A shallow embedding of `stress-futex.c` and `stress-numa.c`.

The stressors talk to the kernel and read the global flag `opt_do_run`, which a
signal handler may clear at any time.  Both are modelled as oracles: the value
returned by the i-th system call and the value seen by the i-th read of the
flag are taken from the environment, and the state counts how many calls and
reads happened so far.  Every loop takes a fuel argument (an upper bound on the
number of iterations); running out of fuel is reported, never confused with a
normal return.
-/

namespace StressNg

/-! ## Common definitions -/

/-- What a system call hands back: the returned value and the `errno` it leaves. -/
structure sysret where
  ret : Int
  errno : Int
deriving DecidableEq, Repr

def EXIT_SUCCESS : Int := 0
/-- Linux errno values used by the stressors. -/
def EIO : Int := 5
def EAGAIN : Int := 11
def ETIMEDOUT : Int := 110

/-- Number of values of a `uint64_t`. -/
def UINT64_SIZE : Nat := 2 ^ 64

/-- Outcome of running a loop with bounded fuel: either the loop was left in
state `s`, or the fuel ran out with the loop still going in state `s`. -/
inductive Run (σ : Type) where
  | exited (s : σ)
  | running (s : σ)

/-- State carried by a loop outcome. -/
def Run.state {σ : Type} : Run σ → σ
  | Run.exited s => s
  | Run.running s => s

/-- Names of the calls whose failure is reported with `pr_fail_err`. -/
inductive Call where
  | futex_wake | futex_wait
  | get_mempolicy | set_mempolicy | mbind | migrate_pages | move_pages
deriving DecidableEq, Repr

/-! ## stress-futex.c -/

def THRESHOLD : Nat := 100000

/-- Calls that leave `stress_futex`, in program order. -/
inductive FutexEvent where
  | fork
  | pr_err_fork (errno : Int)
  | setpgid
  | stress_parent_died_alarm
  | futex_wake (n : Int)
  | futex_wait (val : Int) (tv_sec tv_nsec : Nat)
  | usleep (usec : Nat)
  | pr_fail_err (what : Call)
  | kill
  | waitpid
  | pr_dbg
deriving DecidableEq, Repr

/-- Environment of one process executing `stress_futex`. -/
structure FutexEnv where
  /-- value seen by the i-th read of `opt_do_run` -/
  opt_do_run : Nat → Bool
  /-- `opt_flags & OPT_FLAGS_VERIFY` -/
  verify : Bool
  /-- result of the i-th call of `fork` -/
  fork : Nat → sysret
  /-- result of the i-th futex system call -/
  futex : Nat → sysret
  /-- value of `*counter` the parent reads in its loop test after i wakes
  (the cell lives in shared memory and is written by the child) -/
  peer_counter : Nat → Nat

/-- Memory and bookkeeping of one process executing `stress_futex`. -/
structure FutexState where
  /-- `*counter` -/
  counter : Nat
  /-- `*timeout` -/
  timeout : Nat
  /-- local `threshold` of the waiter -/
  threshold : Nat
  /-- reads of `opt_do_run` so far -/
  nrun : Nat
  /-- calls of `fork` so far -/
  nfork : Nat
  /-- futex system calls so far -/
  nsys : Nat
  trace : List FutexEvent
deriving DecidableEq, Repr

/-- The `again:` block: fork, and retry on `EAGAIN` while `opt_do_run` holds.
Leaves with the value of `pid` (and errno) that the rest of the function sees. -/
def stress_futex_fork (env : FutexEnv) : Nat → FutexState → Run (sysret × FutexState)
  | 0, s => Run.running (⟨0, 0⟩, s)
  | fuel + 1, s =>
    let pid := env.fork s.nfork
    let s1 := { s with nfork := s.nfork + 1, trace := s.trace ++ [FutexEvent.fork] }
    if pid.ret < 0 then
      let run := env.opt_do_run s1.nrun
      let s2 := { s1 with nrun := s1.nrun + 1 }
      if run && pid.errno == EAGAIN then
        stress_futex_fork env fuel s2
      else
        Run.exited (pid, { s2 with trace := s2.trace ++ [FutexEvent.pr_err_fork pid.errno] })
    else
      Run.exited (pid, s1)

/-- One pass through the body and the loop test of the parent's `do ... while`.
The boolean tells whether the loop goes round again. -/
def futex_waker_iter (env : FutexEnv) (max_ops : Nat) (s : FutexState) : FutexState × Bool :=
  if env.opt_do_run s.nrun = false then
    ({ s with nrun := s.nrun + 1 }, false)
  else
    let ret := env.futex s.nsys
    let s1 := { s with nrun := s.nrun + 1, nsys := s.nsys + 1,
                       trace := s.trace ++ [FutexEvent.futex_wake 1] }
    let s2 := if env.verify ∧ ret.ret < 0 then
        { s1 with trace := s1.trace ++ [FutexEvent.pr_fail_err Call.futex_wake] }
      else s1
    let go := env.opt_do_run s2.nrun && (max_ops == 0 || decide (env.peer_counter s2.nsys < max_ops))
    ({ s2 with nrun := s2.nrun + 1 }, go)

def futex_waker_loop (env : FutexEnv) (max_ops : Nat) : Nat → FutexState → Run FutexState
  | 0, s => Run.running s
  | fuel + 1, s =>
    match futex_waker_iter env max_ops s with
    | (s1, true) => futex_waker_loop env max_ops fuel s1
    | (s1, false) => Run.exited s1

/-- One pass through the body and the loop test of the child's `do ... while`.
The boolean tells whether the loop goes round again. -/
def futex_waiter_iter (env : FutexEnv) (max_ops : Nat) (s : FutexState) : FutexState × Bool :=
  if env.opt_do_run s.nrun = false then
    ({ s with nrun := s.nrun + 1 }, false)
  else
    let ret := env.futex s.nsys
    let s1 := { s with nrun := s.nrun + 1, nsys := s.nsys + 1,
                       trace := s.trace ++ [FutexEvent.futex_wait 0 0 5000] }
    let s2 :=
      if ret.ret < 0 ∧ ret.errno = ETIMEDOUT then
        let t := (s1.timeout + 1) % UINT64_SIZE
        if t > s1.threshold then
          { s1 with timeout := t, threshold := (s1.threshold + THRESHOLD) % UINT64_SIZE,
                    trace := s1.trace ++ [FutexEvent.usleep 250000] }
        else
          { s1 with timeout := t }
      else
        let s1a := if ret.ret < 0 ∧ env.verify then
            { s1 with trace := s1.trace ++ [FutexEvent.pr_fail_err Call.futex_wait] }
          else s1
        { s1a with counter := (s1a.counter + 1) % UINT64_SIZE }
    let go := env.opt_do_run s2.nrun && (max_ops == 0 || decide (s2.counter < max_ops))
    ({ s2 with nrun := s2.nrun + 1 }, go)

def futex_waiter_loop (env : FutexEnv) (max_ops : Nat) : Nat → FutexState → Run FutexState
  | 0, s => Run.running s
  | fuel + 1, s =>
    match futex_waiter_iter env max_ops s with
    | (s1, true) => futex_waiter_loop env max_ops fuel s1
    | (s1, false) => Run.exited s1

/-- State of the process when `stress_futex` is entered; `counter` and `timeout`
are the current contents of `*counter` and `shared->futex.timeout[instance]`. -/
def futex_init (counter timeout : Nat) : FutexState :=
  { counter := counter, timeout := timeout, threshold := 0,
    nrun := 0, nfork := 0, nsys := 0, trace := [] }

/-- State in which the child enters its loop: `threshold = THRESHOLD`, after
`setpgid` and `stress_parent_died_alarm`. -/
def futex_waiter_enter (s : FutexState) : FutexState :=
  { s with threshold := THRESHOLD,
           trace := s.trace ++ [FutexEvent.setpgid, FutexEvent.stress_parent_died_alarm] }

/-- State in which the parent enters its loop, after `setpgid`. -/
def futex_waker_enter (s : FutexState) : FutexState :=
  { s with trace := s.trace ++ [FutexEvent.setpgid] }

/-- The function `stress_futex` as run by one process.  `none`: out of fuel. -/
def stress_futex (env : FutexEnv) (max_ops counter timeout : Nat) (fuel : Nat) :
    Option (Int × FutexState) :=
  match stress_futex_fork env fuel (futex_init counter timeout) with
  | Run.running _ => none
  | Run.exited (pid, s) =>
    if pid.ret > 0 then
      match futex_waker_loop env max_ops fuel (futex_waker_enter s) with
      | Run.running _ => none
      | Run.exited s1 =>
        some (EXIT_SUCCESS,
          { s1 with trace := s1.trace ++
              [FutexEvent.kill, FutexEvent.waitpid, FutexEvent.pr_dbg] })
    else
      match futex_waiter_loop env max_ops fuel (futex_waiter_enter s) with
      | Run.running _ => none
      | Run.exited s1 => some (EXIT_SUCCESS, s1)

/-! ## stress-numa.c -/

/-- Size of `unsigned long` in bytes (LP64 Linux). -/
def sizeof_unsigned_long : Nat := 8

def NUMA_LONG_BITS : Nat := sizeof_unsigned_long * 8

def MPOL_DEFAULT : Nat := 0
def MPOL_PREFERRED : Nat := 1
def MPOL_BIND : Nat := 2
def MPOL_F_ADDR : Nat := 1 <<< 1
def MPOL_MF_STRICT : Nat := 1 <<< 0
def MPOL_MF_MOVE : Nat := 1 <<< 1

/-- Modelled from the spec: the constant `MB` of stress-ng.h, which is not part
of the sources ("a buffer of fixed size (several megabytes)"). -/
def MB : Nat := 1024 * 1024

def MMAP_SZ : Nat := 4 * MB

/-- Conversion of an unsigned value to a 32-bit `int`. -/
def to_int (n : Nat) : Int :=
  if n % 2 ^ 32 < 2 ^ 31 then ((n % 2 ^ 32 : Nat) : Int) else ((n % 2 ^ 32 : Nat) : Int) - 2 ^ 32

/-- The struct `node_t`; `next` is a pointer, 0 stands for `NULL`. -/
structure node_t where
  node_id : Nat
  next : Nat
deriving DecidableEq, Repr

/-- The `node_t` objects on the C heap, by address. -/
abbrev Heap := Nat → Option node_t

/-- A directory entry as returned by `readdir`. -/
structure dirent where
  d_name : List Char
deriving DecidableEq, Repr

def isdigit (c : Char) : Bool := decide (48 ≤ c.toNat ∧ c.toNat ≤ 57)

/-- Value of the leading run of decimal digits. -/
def scan_digits : List Char → Nat → Nat
  | [], acc => acc
  | c :: cs, acc => if isdigit c then scan_digits cs (acc * 10 + (c.toNat - 48)) else acc

/-- The library call `sscanf(s, "%u10", &node_id)` on a string that starts with
a digit: the conversion `%u` reads the leading digits (glibc: as an
`unsigned long` that saturates, then cut to 32 bits) and counts as one
assignment whatever follows.  `none`: no assignment was made. -/
def sscanf_u (s : List Char) : Option Nat :=
  match s with
  | [] => none
  | c :: _ => if isdigit c then some (min (scan_digits s 0) (2 ^ 64 - 1) % 2 ^ 32) else none

/-- Locals of `stress_numa_get_nodes` together with the heap. -/
structure NodeList where
  heap : Heap
  /-- `*node_ptr` -/
  node_ptr : Nat
  tail : Nat
  n : Nat
  /-- successful `calloc` calls so far; the next one returns address `nalloc + 1` -/
  nalloc : Nat

def NodeList.empty : NodeList :=
  { heap := fun _ => none, node_ptr := 0, tail := 0, n := 0, nalloc := 0 }

/-- The `readdir` loop of `stress_numa_get_nodes`.  `calloc` hands out fresh
addresses 1, 2, 3, ... and returns `NULL` once `calloc_limit` objects exist. -/
def stress_numa_get_nodes_loop (calloc_limit : Nat) : List dirent → NodeList → NodeList
  | [], s => s
  | entry :: rest, s =>
    if entry.d_name.take 4 ≠ "node".toList then
      stress_numa_get_nodes_loop calloc_limit rest s
    else if isdigit (entry.d_name.getD 4 (Char.ofNat 0)) = false then
      stress_numa_get_nodes_loop calloc_limit rest s
    else
      match sscanf_u (entry.d_name.drop 4) with
      | none => stress_numa_get_nodes_loop calloc_limit rest s
      | some node_id =>
        if calloc_limit ≤ s.nalloc then
          s
        else
          let node := s.nalloc + 1
          let h1 : Heap := Function.update s.heap node (some ⟨node_id, s.node_ptr⟩)
          let tail := if s.tail = 0 then node else s.tail
          let h2 : Heap := Function.update h1 tail ((h1 tail).map fun t => { t with next := node })
          stress_numa_get_nodes_loop calloc_limit rest
            { heap := h2, node_ptr := node, tail := tail,
              n := (s.n + 1) % UINT64_SIZE, nalloc := s.nalloc + 1 }

/-- The function `stress_numa_get_nodes`; `dir = none` when `opendir` fails.
Returns the `int` result and the list that `*node_ptr` points to. -/
def stress_numa_get_nodes (dir : Option (List dirent)) (calloc_limit : Nat) : Int × NodeList :=
  match dir with
  | none => (-1, NodeList.empty)
  | some entries =>
    let s := stress_numa_get_nodes_loop calloc_limit entries NodeList.empty
    (to_int s.n, s)

/-- The loop of `stress_numa_free_nodes`, started with `n = nodes`.
`none`: out of fuel, or `n` is not the address of a live node. -/
def stress_numa_free_nodes_loop (nodes : Nat) : Nat → Heap → Nat → Option Heap
  | 0, h, n => if n = 0 then some h else none
  | fuel + 1, h, n =>
    if n = 0 then some h
    else
      match h n with
      | none => none
      | some nd =>
        let h1 : Heap := Function.update h n none
        if nd.next = nodes then some h1
        else stress_numa_free_nodes_loop nodes fuel h1 nd.next

def stress_numa_free_nodes (fuel : Nat) (h : Heap) (nodes : Nat) : Option Heap :=
  stress_numa_free_nodes_loop nodes fuel h nodes

/-- Calls that leave `stress_numa`, in program order.  A node mask is recorded
as the list of the bit positions below `maxnode` that are set in the array. -/
inductive NumaEvent where
  | pr_inf
  | mmap (len : Nat)
  | pr_fail_mmap
  | munmap (addr len : Nat)
  | get_mempolicy (maxnode addr flags : Nat)
  | set_mempolicy (mode : Nat) (nodemask : List Nat) (maxnode : Nat)
  | memset (addr c len : Nat)
  | getcpu
  | mbind (addr len mode : Nat) (nodemask : List Nat) (maxnode flags : Nat)
  | migrate_pages (pid : Int) (maxnode : Nat) (old_nodes new_nodes : List Nat)
  | move_pages (pid : Int) (count : Nat) (pages : List Nat) (nodes : List Int) (flags : Nat)
  | pr_fail_err (what : Call)
deriving DecidableEq, Repr

/-- Environment of `stress_numa`. -/
structure NumaEnv where
  /-- value seen by the i-th read of `opt_do_run` -/
  opt_do_run : Nat → Bool
  /-- `opt_flags & OPT_FLAGS_VERIFY` -/
  verify : Bool
  /-- listing of `SYS_NODE_PATH`, `none` when `opendir` fails -/
  dir : Option (List dirent)
  calloc_limit : Nat
  /-- address returned by `mmap`, `none` for `MAP_FAILED` -/
  mmap : Option Nat
  mmap_errno : Int
  /-- the helper `exit_status` of the driver -/
  exit_status : Int → Int
  /-- result of `stress_get_pagesize` -/
  page_sz : Nat
  /-- result of `getpid` -/
  mypid : Int
  /-- result of the i-th NUMA system call -/
  sys : Nat → sysret

/-- Memory and bookkeeping of the loop of `stress_numa`. -/
structure NumaState where
  /-- `*counter` -/
  counter : Nat
  /-- the pointer `n` -/
  n : Nat
  /-- the byte held by every cell of the buffer (it is only written by
  `memset` over its whole length) -/
  buf : Nat
  /-- reads of `opt_do_run` so far -/
  nrun : Nat
  /-- NUMA system calls so far -/
  nsys : Nat
  trace : List NumaEvent
deriving DecidableEq, Repr

/-- The local `lbits` of `stress_numa`: the number of bits of an `unsigned long`. -/
def numa_lbits : Nat := 8 * sizeof_unsigned_long

/-- Number of bits of the arrays `node_mask` and `old_node_mask`, which are
declared as `unsigned long node_mask[lbits]`: `lbits` words of `lbits` bits. -/
def NODE_MASK_BITS : Nat := numa_lbits * numa_lbits

/-- An array of `unsigned long` used as a bit array, such as `node_mask`: the
list of its words.  Bit `i` is bit `i % lbits` of word `i / lbits`. -/
abbrev BitArray := List Nat

/-- Is bit `i` set?  (`false` past the end of the array.) -/
def BitArray.bit (mask : BitArray) (i : Nat) : Bool :=
  (mask.getD (i / numa_lbits) 0).testBit (i % numa_lbits)

/-- A kernel call that is handed `node_mask` or `old_node_mask` together with
the size `maxnode` reads, or for `get_mempolicy` writes, `maxnode` bits at that
address.  Does the array hold that many bits? -/
def mask_holds (maxnode : Nat) : Bool := decide (maxnode ≤ NODE_MASK_BITS)

/-- Bit positions below `maxnode` that are set in the array: what a call given
the array and `maxnode ≤ NODE_MASK_BITS` finds in it. -/
def mask_bits (mask : BitArray) (maxnode : Nat) : List Nat :=
  (List.range maxnode).filter fun b => mask.bit b

/-- The array `node_mask` after `memset(node_mask, 0, sizeof(node_mask))`. -/
def mask_clear : BitArray := List.replicate numa_lbits 0

/-- The array `old_node_mask` after `memset(old_node_mask, 0xff, sizeof(old_node_mask))`. -/
def mask_fill : BitArray := List.replicate numa_lbits (2 ^ numa_lbits - 1)

/-- Modelled from the spec: the macro `STRESS_SETBIT` of stress-ng.h, which is
not part of the sources ("build a NodeMask selecting the current node"): it
sets bit `i` of the array and leaves the others.  `none` when `i` is not a bit
of the array: the store would land outside it. -/
def STRESS_SETBIT (mask : BitArray) (i : Nat) : Option BitArray :=
  if i / numa_lbits < mask.length then
    some (mask.set (i / numa_lbits) (mask.getD (i / numa_lbits) 0 ||| 1 <<< (i % numa_lbits)))
  else none

def NumaState.emit (s : NumaState) (e : NumaEvent) : NumaState :=
  { s with trace := s.trace ++ [e] }

/-- Issue a NUMA system call: record it and take its result from the environment. -/
def NumaState.syscall (env : NumaEnv) (s : NumaState) (e : NumaEvent) : sysret × NumaState :=
  (env.sys s.nsys, { s with nsys := s.nsys + 1, trace := s.trace ++ [e] })

/-- The call `memset(buf, c, MMAP_SZ)`. -/
def NumaState.memset_buf (s : NumaState) (addr c : Nat) : NumaState :=
  { s with buf := c % 256, trace := s.trace ++ [NumaEvent.memset addr c MMAP_SZ] }

/-- The statement `if (!opt_do_run) break;`: the boolean is `true` when the
loop body carries on. -/
def NumaState.check_run (env : NumaEnv) (s : NumaState) : NumaState × Bool :=
  ({ s with nrun := s.nrun + 1 }, env.opt_do_run s.nrun)

/-- Sequencing of two parts of the loop body: the second runs unless the first
left the loop with `break`. -/
def and_then (r : Option (NumaState × Bool)) (f : NumaState → Option (NumaState × Bool)) :
    Option (NumaState × Bool) :=
  match r with
  | some (s, true) => f s
  | other => other

/-- Lines 172-191: fetch the memory policy, set the preferred node, fill the buffer.
`get_mempolicy` stores `max_nodes` bits to `node_mask`. -/
def numa_policy_step (env : NumaEnv) (h : Heap) (max_nodes buf : Nat) (s : NumaState) :
    Option (NumaState × Bool) :=
  if mask_holds max_nodes then
    let (ret, s) := s.syscall env (NumaEvent.get_mempolicy max_nodes buf MPOL_F_ADDR)
    let s := if ret.ret < 0 then s.emit (NumaEvent.pr_fail_err Call.get_mempolicy) else s
    and_then (some (s.check_run env)) fun s =>
      match h s.n with
      | none => none
      | some nd =>
        match STRESS_SETBIT mask_clear nd.node_id with
        | none => none
        | some node_mask =>
          let (ret, s) := s.syscall env
            (NumaEvent.set_mempolicy MPOL_PREFERRED (mask_bits node_mask max_nodes) max_nodes)
          let s := if ret.ret < 0 then s.emit (NumaEvent.pr_fail_err Call.set_mempolicy) else s
          let s := s.memset_buf buf 0xff
          some (s.check_run env)
  else none

/-- Lines 203-214 and 219-230: one `mbind` attempt with the given flags, filling
the buffer with `pattern` when it succeeds. -/
def numa_mbind_step (env : NumaEnv) (h : Heap) (max_nodes buf flags pattern : Nat)
    (s : NumaState) : Option (NumaState × Bool) :=
  match h s.n with
  | none => none
  | some nd =>
    match STRESS_SETBIT mask_clear nd.node_id with
    | none => none
    | some node_mask =>
      if mask_holds max_nodes then
        let (ret, s) := s.syscall env
          (NumaEvent.mbind buf MMAP_SZ MPOL_BIND (mask_bits node_mask max_nodes) max_nodes flags)
        let s :=
          if ret.ret < 0 then
            if ret.errno ≠ EIO then s.emit (NumaEvent.pr_fail_err Call.mbind) else s
          else
            s.memset_buf buf pattern
        some (s.check_run env)
      else none

/-- Lines 233-247: move to the next node and migrate the process to it. -/
def numa_migrate_step (env : NumaEnv) (h : Heap) (max_nodes : Nat) (s : NumaState) :
    Option (NumaState × Bool) :=
  match h s.n with
  | none => none
  | some nd =>
    let s := { s with n := nd.next }
    match h s.n with
    | none => none
    | some nd =>
      let old_node_mask := mask_fill
      match STRESS_SETBIT mask_clear nd.node_id with
      | none => none
      | some node_mask =>
        if mask_holds max_nodes then
          let (ret, s) := s.syscall env
            (NumaEvent.migrate_pages env.mypid max_nodes (mask_bits old_node_mask max_nodes)
              (mask_bits node_mask max_nodes))
          let s := if ret.ret < 0 then s.emit (NumaEvent.pr_fail_err Call.migrate_pages) else s
          some (s.check_run env)
        else none

/-- The loop of line 254: `count` pages remain, `ptr` and `n_tmp` are the current
page address and node.  Gives `pages`, `dest_nodes` and the final `n_tmp`. -/
def numa_assign_pages (h : Heap) (page_sz : Nat) :
    Nat → Nat → Nat → Option (List Nat × List Int × Nat)
  | 0, _, n_tmp => some ([], [], n_tmp)
  | count + 1, ptr, n_tmp =>
    match h n_tmp with
    | none => none
    | some nd =>
      match numa_assign_pages h page_sz count (ptr + page_sz) nd.next with
      | none => none
      | some (pages, dest_nodes, n_end) => some (ptr :: pages, to_int nd.node_id :: dest_nodes, n_end)

/-- The loop of line 250 with `rounds` rounds left, the next one being round `j`. -/
def numa_move_rounds (env : NumaEnv) (h : Heap) (buf num_pages : Nat) :
    Nat → Nat → Nat → NumaState → Option NumaState
  | 0, _, _, s => some s
  | rounds + 1, j, n_tmp, s =>
    match numa_assign_pages h env.page_sz num_pages buf n_tmp with
    | none => none
    | some (pages, dest_nodes, n_tmp) =>
      let (ret, s) := s.syscall env
        (NumaEvent.move_pages env.mypid num_pages pages dest_nodes MPOL_MF_MOVE)
      let s := if ret.ret < 0 then s.emit (NumaEvent.pr_fail_err Call.move_pages) else s
      let s := s.memset_buf buf j
      let (s, run) := s.check_run env
      if run then numa_move_rounds env h buf num_pages rounds (j + 1) n_tmp s
      else some s

/-- Lines 249-269: the 16 rounds of `move_pages`, the increment of the counter
and the loop test. -/
def numa_move_step (env : NumaEnv) (h : Heap) (buf max_ops : Nat) (s : NumaState) :
    Option (NumaState × Bool) :=
  match numa_move_rounds env h buf (MMAP_SZ / env.page_sz) 16 0 s.n s with
  | none => none
  | some s =>
    let s := { s with counter := (s.counter + 1) % UINT64_SIZE }
    let go := env.opt_do_run s.nrun && (max_ops == 0 || decide (s.counter < max_ops))
    some ({ s with nrun := s.nrun + 1 }, go)

/-- One pass through the body and the loop test of the `do ... while` of
`stress_numa`.  The boolean tells whether the loop goes round again; `none`
(undefined behaviour) when a pointer that is not the address of a live node is
followed, a bit outside `node_mask` is set, or a kernel call is told that the
array holds more bits than it has. -/
def numa_iter (env : NumaEnv) (h : Heap) (max_nodes buf max_ops : Nat) (s : NumaState) :
    Option (NumaState × Bool) :=
  and_then (numa_policy_step env h max_nodes buf s) fun s =>
  and_then (numa_mbind_step env h max_nodes buf MPOL_MF_STRICT 0xaa (s.emit NumaEvent.getcpu)) fun s =>
  and_then (numa_mbind_step env h max_nodes buf MPOL_DEFAULT 0x5c s) fun s =>
  and_then (numa_migrate_step env h max_nodes s) fun s =>
  numa_move_step env h buf max_ops s

/-- The `do ... while` of `stress_numa`.  `none` as for `numa_iter`. -/
def numa_loop (env : NumaEnv) (h : Heap) (max_nodes buf max_ops : Nat) :
    Nat → NumaState → Option (Run NumaState)
  | 0, s => some (Run.running s)
  | fuel + 1, s =>
    match numa_iter env h max_nodes buf max_ops s with
    | none => none
    | some (s1, true) => numa_loop env h max_nodes buf max_ops fuel s1
    | some (s1, false) => some (Run.exited s1)

/-- What `stress_numa` leaves behind. -/
structure NumaResult where
  rc : Int
  /-- `*counter` -/
  counter : Nat
  /-- node objects still allocated -/
  heap : Heap
  trace : List NumaEvent

/-- The mask size `max_nodes` computed at lines 149-150. -/
def numa_max_nodes (numa_nodes : Int) : Nat :=
  let lbits := numa_lbits
  let nbits := ((numa_nodes.toNat + lbits - 1) % UINT64_SIZE) / lbits
  (nbits * lbits) % UINT64_SIZE

/-- State in which the loop of `stress_numa` is entered: the buffer is freshly
mapped (zero filled), `n` is the list that discovery returned. -/
def numa_enter (counter n : Nat) : NumaState :=
  { counter := counter, n := n, buf := 0, nrun := 0, nsys := 0,
    trace := [NumaEvent.mmap MMAP_SZ] }

/-- The function `stress_numa`, entered with `*counter = counter`.
`none`: out of fuel, or undefined behaviour as for `numa_iter`. -/
def stress_numa (env : NumaEnv) (max_ops counter : Nat) (fuel : Nat) : Option NumaResult :=
  let (numa_nodes, l) := stress_numa_get_nodes env.dir env.calloc_limit
  if numa_nodes ≤ 1 then
    (stress_numa_free_nodes fuel l.heap l.node_ptr).map fun h =>
      { rc := EXIT_SUCCESS, counter := counter, heap := h, trace := [NumaEvent.pr_inf] }
  else
    let max_nodes := numa_max_nodes numa_nodes
    match env.mmap with
    | none =>
      (stress_numa_free_nodes fuel l.heap l.node_ptr).map fun h =>
        { rc := env.exit_status env.mmap_errno, counter := counter, heap := h,
          trace := [NumaEvent.mmap MMAP_SZ, NumaEvent.pr_fail_mmap] }
    | some buf =>
      match numa_loop env l.heap max_nodes buf max_ops fuel (numa_enter counter l.node_ptr) with
      | none => none
      | some (Run.running _) => none
      | some (Run.exited s) =>
        (stress_numa_free_nodes fuel l.heap s.n).map fun h =>
          { rc := EXIT_SUCCESS, counter := s.counter, heap := h,
            trace := s.trace ++ [NumaEvent.munmap buf MMAP_SZ] }

/-! ## Definitions used to state the theorems -/

/-- The futex wait timed out: `ret < 0` with `errno == ETIMEDOUT`. -/
def wait_timed_out (r : sysret) : Prop := r.ret < 0 ∧ r.errno = ETIMEDOUT

instance (r : sysret) : Decidable (wait_timed_out r) := by
  unfold wait_timed_out; infer_instance

/-- The futex wait returned successfully. -/
def wait_succeeded (r : sysret) : Prop := 0 ≤ r.ret

instance (r : sysret) : Decidable (wait_succeeded r) := by
  unfold wait_succeeded; infer_instance

/-- Number of successful waits among the first `m`. -/
def futex_successes (env : FutexEnv) (m : Nat) : Nat :=
  Nat.count (fun i => wait_succeeded (env.futex i)) m

/-- State in which the child process (`fork` returned 0 at once) enters its loop. -/
def futex_child_enter (counter timeout : Nat) : FutexState :=
  futex_waiter_enter
    { futex_init counter timeout with nfork := 1, trace := [FutexEvent.fork] }

/-- The node id that `stress_numa_get_nodes` reads from a directory entry:
the name begins with "node" followed by a digit, and the number that follows
"node" is the id.  `none` for every other entry. -/
def accepted_id (entry : dirent) : Option Nat :=
  if entry.d_name.take 4 = "node".toList ∧ isdigit (entry.d_name.getD 4 (Char.ofNat 0)) = true then
    sscanf_u (entry.d_name.drop 4)
  else none

/-- Node ids of the accepted entries of a listing, in listing order. -/
def accepted_ids (entries : List dirent) : List Nat :=
  entries.filterMap accepted_id

/-- Node ids for which discovery builds a node: the accepted entries up to the
first `calloc` that fails. -/
def discovered_ids (entries : List dirent) (calloc_limit : Nat) : List Nat :=
  (accepted_ids entries).take calloc_limit

/-- What `stress_numa_get_nodes_loop` has built after accepting the entries
with ids `ids` (in this order): node number `a` (the `a`-th created, at address
`a`) holds the `a`-th id; its `next` is the node created just before it, and
the `next` of the first node is the node created last, which is `*node_ptr`. -/
structure NodeListOf (l : NodeList) (ids : List Nat) : Prop where
  nalloc : l.nalloc = ids.length
  n : l.n = ids.length % UINT64_SIZE
  node_ptr : l.node_ptr = ids.length
  tail : l.tail = if ids.length = 0 then 0 else 1
  heap : ∀ a, l.heap a =
    if 1 ≤ a ∧ a ≤ ids.length then
      some ⟨ids.getD (a - 1) 0, if a = 1 then ids.length else a - 1⟩
    else none

/-- Address of the node at position `p` of a ring of `k` nodes, position 0
being the head of the list (the node created last). -/
def ring_addr (k p : Nat) : Nat := k - p

/-- The heap holds a circular list of the nodes with ids `ring`: the node at
position `p` lives at `ring_addr k p` and its `next` is the node at position
`(p + 1) % k`. -/
def RingAt (h : Heap) (ring : List Nat) : Prop :=
  ∀ p, p < ring.length →
    h (ring_addr ring.length p) =
      some ⟨ring.getD p 0, ring_addr ring.length ((p + 1) % ring.length)⟩

/-- Follow `next` pointers `m` times from `p`; `none` when a pointer that is
not the address of a live node has to be followed. -/
def follow (h : Heap) : Nat → Nat → Option Nat
  | 0, p => some p
  | m + 1, p =>
    match h p with
    | none => none
    | some nd => follow h m nd.next

/-- The `node_id` fields met on the first `m` nodes reached from `p` (itself
included) by following `next`. -/
def walk_ids (h : Heap) : Nat → Nat → List Nat
  | 0, _ => []
  | m + 1, p =>
    match h p with
    | none => []
    | some nd => nd.node_id :: walk_ids h m nd.next

/-- Name of the NUMA system call an event stands for. -/
def NumaEvent.call : NumaEvent → Option Call
  | NumaEvent.get_mempolicy _ _ _ => some Call.get_mempolicy
  | NumaEvent.set_mempolicy _ _ _ => some Call.set_mempolicy
  | NumaEvent.mbind _ _ _ _ _ _ => some Call.mbind
  | NumaEvent.migrate_pages _ _ _ _ => some Call.migrate_pages
  | NumaEvent.move_pages _ _ _ _ _ => some Call.move_pages
  | _ => none

/-- The NUMA system calls of a trace, by name, in program order. -/
def numa_calls (t : List NumaEvent) : List Call := t.filterMap NumaEvent.call

/-- Is the event a `move_pages` call? -/
def NumaEvent.is_move_pages : NumaEvent → Bool
  | NumaEvent.move_pages _ _ _ _ _ => true
  | _ => false

/-- The `move_pages` calls of a trace, with their arguments, in program order. -/
def numa_moves (t : List NumaEvent) : List NumaEvent := t.filter NumaEvent.is_move_pages

/-- What a part of the loop body of `stress_numa` does to state `s` on a ring of
`k` nodes: it has a defined result; it leaves `*counter` alone and `n` on the
ring; it adds no `move_pages` call; reads of the run flag are only added; when
it falls through to the next part, `n` is `n1` and the calls `cs` were issued;
and it falls through when the run flag is never cleared. -/
def StepOk (env : NumaEnv) (k : Nat) (s : NumaState) (n1 : Nat) (cs : List Call) :
    Option (NumaState × Bool) → Prop
  | none => False
  | some (s1, b) =>
    s1.counter = s.counter ∧ (∃ q, q < k ∧ s1.n = ring_addr k q) ∧
    numa_moves s1.trace = numa_moves s.trace ∧ s.nrun ≤ s1.nrun ∧
    (b = true → s1.n = n1 ∧ numa_calls s1.trace = numa_calls s.trace ++ cs) ∧
    ((∀ i, env.opt_do_run i = true) → b = true)

/-- Page addresses handed to `move_pages`: page `i` is at `buf + i * page_sz`. -/
def numa_round_pages (buf page_sz num_pages : Nat) : List Nat :=
  (List.range num_pages).map fun i => buf + i * page_sz

/-- Destination nodes of round `j` when the current node is at ring position
`c`: page `i` goes to the node at position `(c + j * num_pages + i) % L`. -/
def numa_round_nodes (ring : List Nat) (c num_pages j : Nat) : List Int :=
  (List.range num_pages).map fun i =>
    to_int (ring.getD ((c + j * num_pages + i) % ring.length) 0)

/-- The `move_pages` call of round `j`. -/
def numa_round_move (env : NumaEnv) (ring : List Nat) (buf c j : Nat) : NumaEvent :=
  NumaEvent.move_pages env.mypid (MMAP_SZ / env.page_sz)
    (numa_round_pages buf env.page_sz (MMAP_SZ / env.page_sz))
    (numa_round_nodes ring c (MMAP_SZ / env.page_sz) j) MPOL_MF_MOVE

/-- What the rounds of `move_pages` do to state `s` when `rounds` of them are
left, the next being round `j`, and the current node is at ring position `c`:
a defined result; `*counter` and `n` are left alone; some number `r ≤ rounds` of rounds
is run (all of them when the run flag is never cleared), round `j + i` issuing
the call `numa_round_move .. (j + i)`. -/
def RoundsOk (env : NumaEnv) (ring : List Nat) (buf c j rounds : Nat) (s : NumaState) :
    Option NumaState → Prop
  | none => False
  | some s1 =>
    s1.counter = s.counter ∧ s1.n = s.n ∧ s.nrun ≤ s1.nrun ∧
    ∃ r, r ≤ rounds ∧
      numa_moves s1.trace =
        numa_moves s.trace ++ (List.range r).map (fun i => numa_round_move env ring buf c (j + i)) ∧
      numa_calls s1.trace = numa_calls s.trace ++ List.replicate r Call.move_pages ∧
      ((∀ i, env.opt_do_run i = true) → r = rounds)

/-- What one pass through the loop of `stress_numa` does to state `s` whose
current node is at ring position `p`, hence at `c = (p + 1) % L` after the
rotation. -/
def IterOk (env : NumaEnv) (ring : List Nat) (buf max_ops p : Nat) (s : NumaState) :
    Option (NumaState × Bool) → Prop
  | none => False
  | some (s2, go) =>
    (∃ q, q < ring.length ∧ s2.n = ring_addr ring.length q) ∧
    (go = true → s2.counter = (s.counter + 1) % UINT64_SIZE ∧
      (max_ops = 0 ∨ s2.counter < max_ops) ∧
      s.nrun < s2.nrun ∧ env.opt_do_run (s2.nrun - 1) = true) ∧
    (∃ r, r ≤ 16 ∧
      numa_moves s2.trace = numa_moves s.trace ++
        (List.range r).map (numa_round_move env ring buf ((p + 1) % ring.length)) ∧
      ((∀ i, env.opt_do_run i = true) → r = 16)) ∧
    ((∀ i, env.opt_do_run i = true) →
      s2.n = ring_addr ring.length ((p + 1) % ring.length) ∧
      s2.counter = (s.counter + 1) % UINT64_SIZE ∧
      go = decide (max_ops = 0 ∨ s2.counter < max_ops) ∧
      numa_calls s2.trace = numa_calls s.trace ++
        [Call.get_mempolicy, Call.set_mempolicy, Call.mbind, Call.mbind, Call.migrate_pages] ++
        List.replicate 16 Call.move_pages)

/-- The NUMA system calls of one full pass through the loop of `stress_numa`:
one `get_mempolicy`, one `set_mempolicy`, two `mbind`, one `migrate_pages`
and 16 `move_pages`. -/
def numa_iter_calls : List Call :=
  [Call.get_mempolicy, Call.set_mempolicy, Call.mbind, Call.mbind, Call.migrate_pages] ++
    List.replicate 16 Call.move_pages

/-- The loop of `stress_numa` as the function runs it, after discovery and
with the buffer mapped at `buf`. -/
def stress_numa_loop (env : NumaEnv) (buf max_ops counter fuel : Nat) : Option (Run NumaState) :=
  numa_loop env (stress_numa_get_nodes env.dir env.calloc_limit).2.heap
    (numa_max_nodes (stress_numa_get_nodes env.dir env.calloc_limit).1) buf max_ops fuel
    (numa_enter counter (stress_numa_get_nodes env.dir env.calloc_limit).2.node_ptr)

/-! ## Concrete environments -/

/-- A waiter whose waits all time out: nobody wakes it and the run flag stays set. -/
def futex_env_timeouts : FutexEnv :=
  { opt_do_run := fun _ => true, verify := false, fork := fun _ => ⟨0, 0⟩,
    futex := fun _ => ⟨-1, ETIMEDOUT⟩, peer_counter := fun _ => 0 }

/-- A child whose waits time out and succeed in turn. -/
def futex_env_wakes : FutexEnv :=
  { opt_do_run := fun _ => true, verify := true, fork := fun _ => ⟨0, 0⟩,
    futex := fun i => if i % 2 = 0 then ⟨-1, ETIMEDOUT⟩ else ⟨0, 0⟩,
    peer_counter := fun _ => 0 }

/-- A process whose `fork` fails with `ENOMEM` (12).  Nobody wakes the futex, so
its waits time out, and the run flag is cleared after four reads. -/
def futex_env_fork_fails : FutexEnv :=
  { opt_do_run := fun i => decide (i < 4), verify := false, fork := fun _ => ⟨-1, 12⟩,
    futex := fun _ => ⟨-1, ETIMEDOUT⟩, peer_counter := fun _ => 0 }

/-- A listing of the node directory of a machine with nodes 0 and 1. -/
def listing_two_nodes : List dirent :=
  [⟨"node0".toList⟩, ⟨"possible".toList⟩, ⟨"node1".toList⟩, ⟨"power".toList⟩]

/-- A listing of the node directory of a machine whose node ids are not
consecutive: nodes 0, 8 and 252 to 255. -/
def listing_sparse_nodes : List dirent :=
  [⟨"node0".toList⟩, ⟨"node8".toList⟩, ⟨"node252".toList⟩, ⟨"node253".toList⟩,
    ⟨"node254".toList⟩, ⟨"node255".toList⟩]

/-- A listing of the node directory with nodes 0 and 4294967295, the largest id
that `sscanf` can store in the `uint32_t` field `node_id`. -/
def listing_huge_id : List dirent :=
  [⟨"node0".toList⟩, ⟨"node4294967295".toList⟩]

/-- A machine with nodes 0 and 1, 4096-byte pages, where every call succeeds. -/
def numa_env_two_nodes : NumaEnv :=
  { opt_do_run := fun _ => true, verify := true, dir := some listing_two_nodes,
    calloc_limit := 1024, mmap := some 1048576, mmap_errno := 0, exit_status := fun _ => 1,
    page_sz := 4096, mypid := 1000, sys := fun _ => ⟨0, 0⟩ }

/-- A machine with nodes 0, 8 and 252 to 255, where every call succeeds. -/
def numa_env_sparse_nodes : NumaEnv :=
  { numa_env_two_nodes with dir := some listing_sparse_nodes }

/-- A machine whose node directory lists nodes 0 and 4294967295, where every
call succeeds. -/
def numa_env_huge_id : NumaEnv :=
  { numa_env_two_nodes with dir := some listing_huge_id }

/-- A machine whose node directory cannot be opened. -/
def numa_env_no_dir : NumaEnv :=
  { numa_env_two_nodes with dir := none }

/-! ## Theorems on stress-futex.c -/

theorem futex_waiter_loop_succ (env : FutexEnv) (max_ops : Nat) (m : Nat) (s : FutexState) :
    futex_waiter_loop env max_ops (m + 1) s =
      match futex_waiter_loop env max_ops m s with
      | Run.running s1 =>
        (match futex_waiter_iter env max_ops s1 with
          | (s2, true) => Run.running s2
          | (s2, false) => Run.exited s2)
      | Run.exited s1 => Run.exited s1 := by
  induction m generalizing s with
  | zero =>
    simp only [futex_waiter_loop]
  | succ m ih =>
    rw [futex_waiter_loop]
    rcases h : futex_waiter_iter env max_ops s with ⟨s2, b⟩
    cases b
    · simp [futex_waiter_loop, h]
    · simp only []
      rw [ih s2]
      conv_rhs => rw [futex_waiter_loop, h]

theorem futex_waiter_loop_exited_add (env : FutexEnv) (max_ops : Nat) (m d : Nat)
    (s s1 : FutexState) (h : futex_waiter_loop env max_ops m s = Run.exited s1) :
    futex_waiter_loop env max_ops (m + d) s = Run.exited s1 := by
  induction d with
  | zero => simpa using h
  | succ d ih => rw [← Nat.add_assoc, futex_waiter_loop_succ, ih]

theorem futex_waiter_iter_timeout (env : FutexEnv) (max_ops : Nat) (s : FutexState)
    (hrun : ∀ i, env.opt_do_run i = true) (hto : wait_timed_out (env.futex s.nsys))
    (hgo : max_ops = 0 ∨ s.counter < max_ops) :
    futex_waiter_iter env max_ops s =
      (if (s.timeout + 1) % UINT64_SIZE > s.threshold then
        { s with timeout := (s.timeout + 1) % UINT64_SIZE,
                 threshold := (s.threshold + THRESHOLD) % UINT64_SIZE,
                 nrun := s.nrun + 2, nsys := s.nsys + 1,
                 trace := s.trace ++ [FutexEvent.futex_wait 0 0 5000, FutexEvent.usleep 250000] }
      else
        { s with timeout := (s.timeout + 1) % UINT64_SIZE,
                 nrun := s.nrun + 2, nsys := s.nsys + 1,
                 trace := s.trace ++ [FutexEvent.futex_wait 0 0 5000] }, true) := by
  have hto2 := hto
  unfold wait_timed_out at hto2
  have hg : (max_ops == 0 || decide (s.counter < max_ops)) = true := by
    rcases hgo with h | h <;> simp [h]
  unfold futex_waiter_iter
  by_cases hthr : (s.timeout + 1) % UINT64_SIZE > s.threshold
  · simp [hrun, hto2, hthr, hg]
  · simp [hrun, hto2, hthr, hg]

theorem futex_waiter_timeouts (env : FutexEnv) (max_ops : Nat) (s0 : FutexState)
    (hrun : ∀ i, env.opt_do_run i = true)
    (hto : ∀ i, wait_timed_out (env.futex i))
    (hgo : max_ops = 0 ∨ s0.counter < max_ops)
    (ht0 : s0.timeout = 0) (n : Nat) (hn : n + THRESHOLD ≤ UINT64_SIZE) :
    ∃ s, futex_waiter_loop env max_ops n (futex_waiter_enter s0) = Run.running s ∧
      s.timeout = n ∧ s.counter = s0.counter ∧ s.nsys = s0.nsys + n ∧
      s.threshold = THRESHOLD * (1 + (n - 1) / THRESHOLD) ∧
      s.trace.count (FutexEvent.usleep 250000) =
        s0.trace.count (FutexEvent.usleep 250000) + (n - 1) / THRESHOLD := by
  induction n with
  | zero =>
    refine ⟨futex_waiter_enter s0, rfl, ?_⟩
    simp [futex_waiter_enter, ht0, THRESHOLD, List.count_cons]
  | succ n ih =>
    obtain ⟨s, hs, h1, h2, h3, h4, h5⟩ := ih (by omega)
    have hgo2 : max_ops = 0 ∨ s.counter < max_ops := by rw [h2]; exact hgo
    rw [futex_waiter_loop_succ, hs]
    simp only [futex_waiter_iter_timeout env max_ops s hrun (hto _) hgo2]
    simp only [THRESHOLD, UINT64_SIZE] at hn h4 h5 ⊢
    have hmod : (s.timeout + 1) % 2 ^ 64 = n + 1 := by
      rw [h1]; exact Nat.mod_eq_of_lt (by omega)
    by_cases hthr : (s.timeout + 1) % 2 ^ 64 > s.threshold
    · have hmod2 : (s.threshold + 100000) % 2 ^ 64 = s.threshold + 100000 :=
        Nat.mod_eq_of_lt (by omega)
      refine ⟨_, by rw [if_pos hthr], ?_⟩
      simp only [hmod2, List.count_append, h5, h2, h3]
      refine ⟨by omega, trivial, by omega, by omega, ?_⟩
      simp [List.count_cons]
      omega
    · refine ⟨_, by rw [if_neg hthr], ?_⟩
      simp only [List.count_append, h5, h2, h3]
      refine ⟨by omega, trivial, by omega, by omega, ?_⟩
      simp [List.count_cons]
      omega

/-- C6: in the waiter loop entered with `timeout_count = 0`, when the run flag
stays true, the loop bound is not reached and every futex wait times out, then
after `n` waits the loop is still running with `timeout_count = n` and
`OpCounter` unchanged; the threshold starts at `THRESHOLD`; the wait number
`n + 1` is followed by the backoff `usleep(250000)` exactly when the new
`timeout_count` exceeds the current threshold, which happens exactly when
`n + 1 = k * THRESHOLD + 1` for some `k ≥ 1`, and each backoff raises the
threshold by `THRESHOLD`; so after `n` waits `(n - 1) / THRESHOLD` backoffs have
happened.  (The counters are 64 bits wide, hence the bound on `n`.) -/
theorem futex_waiter_backoff (env : FutexEnv) (max_ops : Nat) (s0 : FutexState) (n : Nat)
    (hrun : ∀ i, env.opt_do_run i = true)
    (hto : ∀ i, wait_timed_out (env.futex i))
    (hgo : max_ops = 0 ∨ s0.counter < max_ops)
    (ht0 : s0.timeout = 0)
    (hn : n + THRESHOLD < UINT64_SIZE) :
    ∃ s s1, futex_waiter_loop env max_ops n (futex_waiter_enter s0) = Run.running s ∧
      futex_waiter_loop env max_ops (n + 1) (futex_waiter_enter s0) = Run.running s1 ∧
      s.timeout = n ∧ s.counter = s0.counter ∧ s.nsys = s0.nsys + n ∧
      s1.timeout = n + 1 ∧ s1.counter = s0.counter ∧ s1.nsys = s0.nsys + (n + 1) ∧
      (n = 0 → s.threshold = THRESHOLD) ∧
      s.trace.count (FutexEvent.usleep 250000) =
        s0.trace.count (FutexEvent.usleep 250000) + (n - 1) / THRESHOLD ∧
      (s1.timeout > s.threshold ↔ ∃ k, 1 ≤ k ∧ n + 1 = k * THRESHOLD + 1) ∧
      (s1.timeout > s.threshold →
        s1.trace = s.trace ++ [FutexEvent.futex_wait 0 0 5000, FutexEvent.usleep 250000] ∧
        s1.threshold = s.threshold + THRESHOLD) ∧
      (¬ s1.timeout > s.threshold →
        s1.trace = s.trace ++ [FutexEvent.futex_wait 0 0 5000] ∧
        s1.threshold = s.threshold) := by
  obtain ⟨s, hs, h1, h2, h3, h4, h5⟩ :=
    futex_waiter_timeouts env max_ops s0 hrun hto hgo ht0 n (by omega)
  have hgo2 : max_ops = 0 ∨ s.counter < max_ops := by rw [h2]; exact hgo
  have hstep := futex_waiter_loop_succ env max_ops n (futex_waiter_enter s0)
  rw [hs] at hstep
  simp only [futex_waiter_iter_timeout env max_ops s hrun (hto _) hgo2] at hstep
  have hmod : (s.timeout + 1) % UINT64_SIZE = n + 1 := by
    rw [h1]; apply Nat.mod_eq_of_lt
    simp only [THRESHOLD, UINT64_SIZE] at hn ⊢
    omega
  have hiff : (n + 1 > s.threshold ↔ ∃ k, 1 ≤ k ∧ n + 1 = k * THRESHOLD + 1) := by
    simp only [THRESHOLD] at h4 ⊢
    constructor
    · intro h
      exact ⟨n / 100000, by omega, by omega⟩
    · rintro ⟨k, hk1, hk2⟩
      have : n = k * 100000 := by omega
      subst this
      have h6 : (k * 100000 - 1) / 100000 = k - 1 := by omega
      rw [h6] at h4
      omega
  by_cases hthr : (s.timeout + 1) % UINT64_SIZE > s.threshold
  · rw [if_pos hthr] at hstep
    have hmod2 : (s.threshold + THRESHOLD) % UINT64_SIZE = s.threshold + THRESHOLD := by
      apply Nat.mod_eq_of_lt
      simp only [THRESHOLD, UINT64_SIZE] at hn h4 hthr hmod ⊢
      omega
    refine ⟨s, _, hs, hstep, h1, h2, h3, hmod, h2, by dsimp only; omega, ?_, h5, ?_, ?_, ?_⟩
    · intro hn0; subst hn0; simpa [THRESHOLD] using h4
    · simpa [hmod] using hiff
    · intro _; exact ⟨rfl, hmod2⟩
    · intro hc; exact absurd hthr hc
  · rw [if_neg hthr] at hstep
    refine ⟨s, _, hs, hstep, h1, h2, h3, hmod, h2, by dsimp only; omega, ?_, h5, ?_, ?_, ?_⟩
    · intro hn0; subst hn0; simpa [THRESHOLD] using h4
    · simpa [hmod] using hiff
    · intro hc; exact absurd hc hthr
    · intro _; exact ⟨rfl, rfl⟩

theorem futex_waiter_iter_success (env : FutexEnv) (max_ops : Nat) (s : FutexState)
    (hrun : ∀ i, env.opt_do_run i = true) (hok : wait_succeeded (env.futex s.nsys))
    (hlt : s.counter + 1 < UINT64_SIZE) :
    futex_waiter_iter env max_ops s =
      ({ s with counter := s.counter + 1, nrun := s.nrun + 2, nsys := s.nsys + 1,
                trace := s.trace ++ [FutexEvent.futex_wait 0 0 5000] },
        (max_ops == 0 || decide (s.counter + 1 < max_ops))) := by
  unfold wait_succeeded at hok
  have h1 : ¬ (env.futex s.nsys).ret < 0 := by omega
  unfold futex_waiter_iter
  simp [hrun, h1, Nat.mod_eq_of_lt hlt]

theorem futex_successes_succ (env : FutexEnv) (m : Nat) :
    futex_successes env (m + 1) =
      futex_successes env m + if wait_succeeded (env.futex m) then 1 else 0 := by
  unfold futex_successes
  rw [Nat.count_succ]

theorem futex_successes_mono (env : FutexEnv) {m n : Nat} (h : m ≤ n) :
    futex_successes env m ≤ futex_successes env n :=
  Nat.count_monotone _ h

theorem futex_waiter_running (env : FutexEnv) (max_ops c0 t0 N : Nat)
    (hmax64 : max_ops < UINT64_SIZE)
    (hrun : ∀ i, env.opt_do_run i = true)
    (hout : ∀ i, wait_timed_out (env.futex i) ∨ wait_succeeded (env.futex i))
    (hcount : c0 + futex_successes env N < max_ops) (m : Nat) (hm : m ≤ N) :
    ∃ s, futex_waiter_loop env max_ops m (futex_child_enter c0 t0) = Run.running s ∧
      s.counter = c0 + futex_successes env m ∧ s.nsys = m := by
  induction m with
  | zero =>
    exact ⟨_, rfl, by simp [futex_child_enter, futex_waiter_enter, futex_init, futex_successes],
      rfl⟩
  | succ m ih =>
    obtain ⟨s, hs, h1, h2⟩ := ih (by omega)
    have hmono := futex_successes_mono env hm
    have hsucc := futex_successes_succ env m
    rw [futex_waiter_loop_succ, hs]
    rcases hout m with hto | hok
    · have hno : ¬ wait_succeeded (env.futex m) := by
        unfold wait_timed_out at hto; unfold wait_succeeded; omega
      rw [if_neg hno] at hsucc
      have hgo : max_ops = 0 ∨ s.counter < max_ops := Or.inr (by omega)
      rw [← h2] at hto
      simp only [futex_waiter_iter_timeout env max_ops s hrun hto hgo]
      by_cases hthr : (s.timeout + 1) % UINT64_SIZE > s.threshold
      · exact ⟨_, by rw [if_pos hthr], by dsimp only; omega, by dsimp only; omega⟩
      · exact ⟨_, by rw [if_neg hthr], by dsimp only; omega, by dsimp only; omega⟩
    · rw [if_pos hok] at hsucc
      rw [← h2] at hok
      have hgo : (max_ops == 0 || decide (s.counter + 1 < max_ops)) = true := by
        have : s.counter + 1 < max_ops := by omega
        simp [this]
      simp only [futex_waiter_iter_success env max_ops s hrun hok (by omega), hgo]
      exact ⟨_, rfl, by dsimp only; omega, by dsimp only; omega⟩

/-- C2: the child's waiter loop under an always-true run flag, with
`0 < max_ops`, `OpCounter = c0 < max_ops` on entry, and futex waits that each
either time out or succeed, where wait number `N` (counted from 0) is the
success that completes `max_ops - c0` successes.  For every `m ≤ N` the loop is
still running after `m` waits with `OpCounter < max_ops`; wait `m` leaves
`OpCounter` unchanged when it times out and adds exactly one when it succeeds,
never taking it above `max_ops`; the loop exits right after wait `N`, having
issued `N + 1` waits, with `OpCounter = max_ops`; and with that much fuel
`stress_futex` returns `EXIT_SUCCESS` in that state. -/
theorem futex_waiter_exact_bound (env : FutexEnv) (max_ops c0 t0 N : Nat)
    (hmax : 0 < max_ops) (hmax64 : max_ops < UINT64_SIZE)
    (hchild : (env.fork 0).ret = 0)
    (hrun : ∀ i, env.opt_do_run i = true)
    (hout : ∀ i, wait_timed_out (env.futex i) ∨ wait_succeeded (env.futex i))
    (hlast : wait_succeeded (env.futex N))
    (hcount : c0 + futex_successes env N + 1 = max_ops) :
    (∀ m, m ≤ N →
      ∃ a b, futex_waiter_loop env max_ops m (futex_child_enter c0 t0) = Run.running a ∧
        (futex_waiter_loop env max_ops (m + 1) (futex_child_enter c0 t0)).state = b ∧
        a.counter < max_ops ∧ a.nsys = m ∧ b.nsys = m + 1 ∧
        (wait_timed_out (env.futex m) → b.counter = a.counter ∧ b.timeout = (a.timeout + 1) % UINT64_SIZE) ∧
        (wait_succeeded (env.futex m) → b.counter = a.counter + 1 ∧ b.timeout = a.timeout) ∧
        b.counter ≤ max_ops) ∧
    ∃ s, futex_waiter_loop env max_ops (N + 1) (futex_child_enter c0 t0) = Run.exited s ∧
      s.counter = max_ops ∧ s.nsys = N + 1 ∧
      ∀ fuel, N + 1 ≤ fuel → stress_futex env max_ops c0 t0 fuel = some (EXIT_SUCCESS, s) := by
  have hrunning := futex_waiter_running env max_ops c0 t0 N hmax64 hrun hout (by omega)
  have hstep : ∀ m, m ≤ N →
      ∃ a b go, futex_waiter_loop env max_ops m (futex_child_enter c0 t0) = Run.running a ∧
        futex_waiter_iter env max_ops a = (b, go) ∧
        a.counter = c0 + futex_successes env m ∧
        a.counter < max_ops ∧ a.nsys = m ∧ b.nsys = m + 1 ∧
        (wait_timed_out (env.futex m) → b.counter = a.counter ∧ b.timeout = (a.timeout + 1) % UINT64_SIZE) ∧
        (wait_succeeded (env.futex m) → b.counter = a.counter + 1 ∧ b.timeout = a.timeout) ∧
        b.counter ≤ max_ops ∧ (go = false ↔ b.counter = max_ops) := by
    intro m hm
    obtain ⟨a, ha, h1, h2⟩ := hrunning m hm
    have hmono := futex_successes_mono env hm
    rcases hout m with hto | hok
    · have hno : ¬ wait_succeeded (env.futex m) := by
        unfold wait_timed_out at hto; unfold wait_succeeded; omega
      have hgo : max_ops = 0 ∨ a.counter < max_ops := Or.inr (by omega)
      have hto2 := hto
      rw [← h2] at hto2
      have hiter := futex_waiter_iter_timeout env max_ops a hrun hto2 hgo
      by_cases hthr : (a.timeout + 1) % UINT64_SIZE > a.threshold
      · rw [if_pos hthr] at hiter
        refine ⟨a, _, _, ha, hiter, h1, by omega, h2, by dsimp only; omega, ?_, ?_, ?_, ?_⟩
        · intro _; exact ⟨rfl, rfl⟩
        · intro h; exact absurd h hno
        · dsimp only; omega
        · dsimp only; constructor
          · intro h; cases h
          · intro h; omega
      · rw [if_neg hthr] at hiter
        refine ⟨a, _, _, ha, hiter, h1, by omega, h2, by dsimp only; omega, ?_, ?_, ?_, ?_⟩
        · intro _; exact ⟨rfl, rfl⟩
        · intro h; exact absurd h hno
        · dsimp only; omega
        · dsimp only; constructor
          · intro h; cases h
          · intro h; omega
    · have hnt : ¬ wait_timed_out (env.futex m) := by
        unfold wait_succeeded at hok; unfold wait_timed_out; omega
      have hok2 := hok
      rw [← h2] at hok2
      have hiter := futex_waiter_iter_success env max_ops a hrun hok2 (by omega)
      refine ⟨a, _, _, ha, hiter, h1, by omega, h2, by dsimp only; omega, ?_, ?_, ?_, ?_⟩
      · intro h; exact absurd h hnt
      · intro _; exact ⟨rfl, rfl⟩
      · dsimp only; omega
      · dsimp only
        have hne : max_ops ≠ 0 := by omega
        simp [hne]
        omega
  constructor
  · intro m hm
    obtain ⟨a, b, go, ha, hiter, _, h2, h3, h4, h5, h6, h7, _⟩ := hstep m hm
    refine ⟨a, b, ha, ?_, h2, h3, h4, h5, h6, h7⟩
    rw [futex_waiter_loop_succ, ha]
    simp only [hiter]
    cases go <;> rfl
  · obtain ⟨a, b, go, ha, hiter, h1, h2, h3, h4, h5, h6, h7, h8⟩ := hstep N (le_refl N)
    have hb : b.counter = max_ops := by
      have := (h6 hlast).1
      omega
    have hgo : go = false := h8.2 hb
    subst hgo
    have hexit : futex_waiter_loop env max_ops (N + 1) (futex_child_enter c0 t0) = Run.exited b := by
      rw [futex_waiter_loop_succ, ha]
      simp only [hiter]
    refine ⟨b, hexit, hb, h4, ?_⟩
    intro fuel hfuel
    obtain ⟨d, rfl⟩ : ∃ d, fuel = (N + 1) + d := ⟨fuel - (N + 1), by omega⟩
    have hloop := futex_waiter_loop_exited_add env max_ops (N + 1) d _ _ hexit
    have hfork : stress_futex_fork env (N + 1 + d) (futex_init c0 t0) =
        Run.exited (env.fork 0,
          { futex_init c0 t0 with nfork := 1, trace := [FutexEvent.fork] }) := by
      rw [show N + 1 + d = (N + d) + 1 by omega]
      simp [stress_futex_fork, futex_init, hchild]
    unfold stress_futex
    rw [hfork]
    simp only [hchild, gt_iff_lt, lt_self_iff_false, if_false]
    unfold futex_child_enter at hloop
    rw [hloop]

/-! ## Theorems on stress-numa.c -/

theorem mod_lt_two_mul (x k : Nat) (h : x < 2 * k) :
    x % k = if x < k then x else x - k := by
  split
  · exact Nat.mod_eq_of_lt (by assumption)
  · rw [Nat.mod_eq_sub_mod (by omega)]
    exact Nat.mod_eq_of_lt (by omega)

theorem NodeListOf_empty : NodeListOf NodeList.empty [] := by
  constructor <;> simp [NodeList.empty]
  intro a; split <;> first | rfl | omega

theorem NodeListOf_insert (l : NodeList) (ids : List Nat) (d : Nat) (hl : NodeListOf l ids) :
    NodeListOf
      { heap := Function.update
          (Function.update l.heap (l.nalloc + 1) (some ⟨d, l.node_ptr⟩))
          (if l.tail = 0 then l.nalloc + 1 else l.tail)
          ((Function.update l.heap (l.nalloc + 1) (some ⟨d, l.node_ptr⟩)
            (if l.tail = 0 then l.nalloc + 1 else l.tail)).map
              fun t => { t with next := l.nalloc + 1 }),
        node_ptr := l.nalloc + 1,
        tail := if l.tail = 0 then l.nalloc + 1 else l.tail,
        n := (l.n + 1) % UINT64_SIZE,
        nalloc := l.nalloc + 1 } (ids ++ [d]) := by
  obtain ⟨h1, h2, h3, h4, h5⟩ := hl
  have htail : (if l.tail = 0 then l.nalloc + 1 else l.tail) = 1 := by
    rw [h4, h1]; split <;> simp_all
  constructor
  · simp [h1]
  · simp [h2, Nat.add_mod]
  · simp [h1]
  · simp [htail]
  · intro a
    show Function.update _ _ _ a = _
    rw [htail]
    simp only [List.length_append, List.length_singleton]
    by_cases ha1 : a = 1
    · subst ha1
      rw [Function.update_same]
      by_cases hk : ids.length = 0
      · have hnil : ids = [] := List.length_eq_zero.mp hk
        subst hnil
        have h10 : l.nalloc + 1 = 1 := by simp [h1]
        rw [h10, Function.update_same]
        simp [h1]
      · have hne : (1 : Nat) ≠ l.nalloc + 1 := by omega
        rw [Function.update_noteq hne, h5 1]
        have hin : 1 ≤ 1 ∧ 1 ≤ ids.length := by omega
        have hin2 : 1 ≤ 1 ∧ 1 ≤ ids.length + 1 := by omega
        rw [if_pos hin, if_pos hin2, List.getD_append _ _ _ _ (by omega)]
        simp [h1]
    · rw [Function.update_noteq ha1]
      by_cases hak : a = l.nalloc + 1
      · subst hak
        rw [Function.update_same]
        have hin2 : 1 ≤ l.nalloc + 1 ∧ l.nalloc + 1 ≤ ids.length + 1 := by omega
        rw [if_pos hin2, if_neg ha1, List.getD_append_right _ _ _ _ (by omega)]
        have h0 : l.nalloc + 1 - 1 - ids.length = 0 := by omega
        rw [h0, h3, h1]
        rfl
      · rw [Function.update_noteq hak, h5 a]
        by_cases hin : 1 ≤ a ∧ a ≤ ids.length
        · have hin2 : 1 ≤ a ∧ a ≤ ids.length + 1 := by omega
          rw [if_pos hin, if_pos hin2, List.getD_append _ _ _ _ (by omega), if_neg ha1, if_neg ha1]
        · have hin2 : ¬ (1 ≤ a ∧ a ≤ ids.length + 1) := by omega
          rw [if_neg hin, if_neg hin2]

theorem accepted_ids_cons (e : dirent) (es : List dirent) :
    accepted_ids (e :: es) =
      match accepted_id e with
      | none => accepted_ids es
      | some d => d :: accepted_ids es := by
  unfold accepted_ids
  rw [List.filterMap_cons]
  cases accepted_id e <;> rfl

theorem stress_numa_get_nodes_loop_spec (calloc_limit : Nat) (entries : List dirent)
    (l : NodeList) (ids : List Nat) (hl : NodeListOf l ids) (hle : ids.length ≤ calloc_limit) :
    NodeListOf (stress_numa_get_nodes_loop calloc_limit entries l)
      ((ids ++ accepted_ids entries).take calloc_limit) := by
  induction entries generalizing l ids with
  | nil =>
    simp only [stress_numa_get_nodes_loop, accepted_ids, List.filterMap_nil, List.append_nil]
    rw [List.take_of_length_le hle]
    exact hl
  | cons e es ih =>
    rw [accepted_ids_cons]
    unfold stress_numa_get_nodes_loop
    by_cases h1 : e.d_name.take 4 = "node".toList
    · by_cases h2 : isdigit (e.d_name.getD 4 (Char.ofNat 0)) = true
      · have hacc : accepted_id e = sscanf_u (e.d_name.drop 4) := by
          unfold accepted_id
          rw [if_pos ⟨h1, h2⟩]
        rw [hacc]
        simp only [h1, h2, ne_eq, not_true_eq_false, if_false]
        cases hsc : sscanf_u (e.d_name.drop 4) with
        | none => exact ih l ids hl hle
        | some d =>
          simp only []
          by_cases hlim : calloc_limit ≤ l.nalloc
          · rw [if_pos hlim]
            have : ids.length = calloc_limit := by have := hl.nalloc; omega
            rw [List.take_append_of_le_length (by omega), List.take_of_length_le (by omega)]
            exact hl
          · rw [if_neg hlim]
            have := ih _ (ids ++ [d]) (NodeListOf_insert l ids d hl)
              (by have := hl.nalloc; simp; omega)
            simpa [List.append_assoc] using this
      · have hacc : accepted_id e = none := by
          unfold accepted_id
          rw [if_neg (fun h => h2 h.2)]
        rw [hacc]
        have h2f : isdigit (e.d_name.getD 4 (Char.ofNat 0)) = false := by
          simpa using h2
        simp only [h1, h2f, ne_eq, not_true_eq_false, if_false, if_true]
        exact ih l ids hl hle
    · have hacc : accepted_id e = none := by
        unfold accepted_id
        rw [if_neg (fun h => h1 h.1)]
      rw [hacc]
      simp only [h1, ne_eq, not_false_eq_true, if_true]
      exact ih l ids hl hle

theorem stress_numa_get_nodes_some (entries : List dirent) (calloc_limit : Nat) :
    NodeListOf (stress_numa_get_nodes (some entries) calloc_limit).2
      (discovered_ids entries calloc_limit) ∧
    (stress_numa_get_nodes (some entries) calloc_limit).1 =
      to_int ((discovered_ids entries calloc_limit).length % UINT64_SIZE) := by
  have h := stress_numa_get_nodes_loop_spec calloc_limit entries NodeList.empty []
    NodeListOf_empty (Nat.zero_le _)
  simp only [List.nil_append] at h
  refine ⟨h, ?_⟩
  simp only [stress_numa_get_nodes]
  rw [h.n]
  rfl

theorem to_int_small (n : Nat) (h : n < 2 ^ 31) : to_int (n % UINT64_SIZE) = (n : Int) := by
  have h1 : n % UINT64_SIZE = n := Nat.mod_eq_of_lt (by simp only [UINT64_SIZE]; omega)
  have h2 : n % 2 ^ 32 = n := Nat.mod_eq_of_lt (by omega)
  unfold to_int
  rw [h1, h2, if_pos h]

theorem NodeListOf.ring {l : NodeList} {ids : List Nat} (hl : NodeListOf l ids) :
    RingAt l.heap ids.reverse := by
  intro p hp
  simp only [List.length_reverse] at hp ⊢
  unfold ring_addr
  rw [hl.heap]
  have hin : 1 ≤ ids.length - p ∧ ids.length - p ≤ ids.length := by omega
  rw [if_pos hin]
  have hid : ids.getD (ids.length - p - 1) 0 = ids.reverse.getD p 0 := by
    rw [List.getD_eq_getElem _ _ (by omega), List.getD_eq_getElem _ _ (by simpa using hp)]
    rw [List.getElem_reverse]
    congr 1
    omega
  rw [hid]
  have hmod := mod_lt_two_mul (p + 1) ids.length (by omega)
  congr 2
  rw [hmod]
  split <;> split <;> omega

theorem follow_ring (h : Heap) (ring : List Nat) (hr : RingAt h ring) (m p : Nat)
    (hp : p < ring.length) :
    follow h m (ring_addr ring.length p) = some (ring_addr ring.length ((p + m) % ring.length)) := by
  induction m generalizing p with
  | zero => simp [follow, Nat.mod_eq_of_lt hp]
  | succ m ih =>
    rw [follow, hr p hp]
    simp only []
    rw [ih _ (Nat.mod_lt _ (by omega)), Nat.mod_add_mod]
    congr 3
    omega

theorem walk_ids_ring (h : Heap) (ring : List Nat) (hr : RingAt h ring) (m p : Nat)
    (hpm : p + m ≤ ring.length) :
    walk_ids h m (ring_addr ring.length p) = (ring.drop p).take m := by
  induction m generalizing p with
  | zero => simp [walk_ids]
  | succ m ih =>
    have hp : p < ring.length := by omega
    rw [walk_ids, hr p hp]
    simp only []
    rw [List.drop_eq_getElem_cons hp, List.take_succ_cons, List.getD_eq_getElem _ _ hp]
    congr 1
    by_cases hlast : p + 1 < ring.length
    · rw [Nat.mod_eq_of_lt hlast]
      exact ih (p + 1) (by omega)
    · have hm : m = 0 := by omega
      subst hm
      simp [walk_ids]

theorem ring_addr_inj (k p q : Nat) (hp : p < k) (hq : q < k)
    (h : ring_addr k p = ring_addr k q) : p = q := by
  unfold ring_addr at h
  omega

theorem stress_numa_free_nodes_loop_ring (l : NodeList) (ids : List Nat) (hl : NodeListOf l ids)
    (start : Nat) (hs1 : 1 ≤ start) (hsk : start ≤ ids.length) (fuel : Nat) :
    ∀ (j : Nat) (hj : Heap), j < ids.length → ids.length - j ≤ fuel →
      (∀ a, hj a = if 1 ≤ a ∧ a ≤ ids.length ∧
          j ≤ (if a ≤ start then start - a else start + ids.length - a) then l.heap a else none) →
      ∃ h1, stress_numa_free_nodes_loop start fuel hj
          (if j < start then start - j else start + ids.length - j) = some h1 ∧
        ∀ a, h1 a = none := by
  induction fuel with
  | zero => intro j hj hjk hfuel; omega
  | succ fuel ih =>
    intro j hj hjk hfuel hheap
    have hcur : ∃ cur, cur = (if j < start then start - j else start + ids.length - j) ∧
        1 ≤ cur ∧ cur ≤ ids.length ∧
        (if cur ≤ start then start - cur else start + ids.length - cur) = j := by
      refine ⟨_, rfl, ?_⟩
      split <;> (refine ⟨by omega, by omega, ?_⟩; split <;> omega)
    obtain ⟨cur, hcureq, hc1, hck, hdist⟩ := hcur
    rw [← hcureq]
    have hread : hj cur = some ⟨ids.getD (cur - 1) 0, if cur = 1 then ids.length else cur - 1⟩ := by
      rw [hheap cur, if_pos ⟨hc1, hck, by omega⟩, hl.heap cur, if_pos ⟨hc1, hck⟩]
    rw [stress_numa_free_nodes_loop, if_neg (by omega), hread]
    simp only []
    by_cases hnext : (if cur = 1 then ids.length else cur - 1) = start
    · rw [if_pos hnext]
      refine ⟨_, rfl, ?_⟩
      intro a
      by_cases hac : a = cur
      · subst hac; simp
      · rw [Function.update_noteq hac, hheap a]
        have : ¬ (1 ≤ a ∧ a ≤ ids.length ∧
            j ≤ (if a ≤ start then start - a else start + ids.length - a)) := by
          intro ⟨ha1, hak, hd⟩
          split at hnext <;> split at hdist <;> split at hd <;> omega
        rw [if_neg this]
    · rw [if_neg hnext]
      have hj1 : j + 1 < ids.length := by
        split at hnext <;> split at hdist <;> omega
      have hnexteq : (if cur = 1 then ids.length else cur - 1) =
          (if j + 1 < start then start - (j + 1) else start + ids.length - (j + 1)) := by
        split <;> split <;> split at hdist <;> omega
      rw [hnexteq]
      apply ih (j + 1) _ hj1 (by omega)
      intro a
      by_cases hac : a = cur
      · subst hac
        rw [Function.update_same]
        have : ¬ (1 ≤ a ∧ a ≤ ids.length ∧
            j + 1 ≤ (if a ≤ start then start - a else start + ids.length - a)) := by
          intro ⟨_, _, hd⟩
          omega
        rw [if_neg this]
      · rw [Function.update_noteq hac, hheap a]
        by_cases hin : 1 ≤ a ∧ a ≤ ids.length ∧
            j ≤ (if a ≤ start then start - a else start + ids.length - a)
        · have : 1 ≤ a ∧ a ≤ ids.length ∧
              j + 1 ≤ (if a ≤ start then start - a else start + ids.length - a) := by
            obtain ⟨ha1, hak, hd⟩ := hin
            refine ⟨ha1, hak, ?_⟩
            split at hdist <;> split at hd <;> split <;> omega
          rw [if_pos hin, if_pos this]
        · have : ¬ (1 ≤ a ∧ a ≤ ids.length ∧
              j + 1 ≤ (if a ≤ start then start - a else start + ids.length - a)) := by
            intro ⟨ha1, hak, hd⟩
            apply hin
            refine ⟨ha1, hak, ?_⟩
            split at hd <;> split <;> omega
          rw [if_neg hin, if_neg this]

/-- Freeing a list built by discovery, from any of its nodes, with fuel for
every node: the loop returns and no node object is left. -/
theorem stress_numa_free_nodes_ring (l : NodeList) (ids : List Nat) (hl : NodeListOf l ids)
    (start : Nat) (hs1 : 1 ≤ start) (hsk : start ≤ ids.length) (fuel : Nat)
    (hfuel : ids.length ≤ fuel) :
    ∃ h1, stress_numa_free_nodes fuel l.heap start = some h1 ∧ ∀ a, h1 a = none := by
  have h := stress_numa_free_nodes_loop_ring l ids hl start hs1 hsk fuel 0 l.heap (by omega)
    (by omega) (by
      intro a
      by_cases hin : 1 ≤ a ∧ a ≤ ids.length
      · rw [if_pos ⟨hin.1, hin.2, Nat.zero_le _⟩]
      · have : ¬ (1 ≤ a ∧ a ≤ ids.length ∧
            0 ≤ (if a ≤ start then start - a else start + ids.length - a)) :=
          fun h => hin ⟨h.1, h.2.1⟩
        rw [if_neg this, hl.heap a, if_neg hin])
  have h0 : (if 0 < start then start - 0 else start + ids.length - 0) = start := by
    rw [if_pos (by omega)]; rfl
  rw [h0] at h
  exact h

/-- Freeing the empty list. -/
theorem stress_numa_free_nodes_null (l : NodeList) (hl : NodeListOf l []) (fuel : Nat) :
    stress_numa_free_nodes fuel l.heap l.node_ptr = some l.heap ∧ ∀ a, l.heap a = none := by
  have hp : l.node_ptr = 0 := by simpa using hl.node_ptr
  refine ⟨?_, ?_⟩
  · unfold stress_numa_free_nodes
    rw [hp]
    cases fuel <;> simp [stress_numa_free_nodes_loop]
  · intro a
    rw [hl.heap a]
    simp
    omega

/-- Freeing the list that discovery returned, with fuel for every node. -/
theorem stress_numa_free_nodes_discovered (l : NodeList) (ids : List Nat) (hl : NodeListOf l ids)
    (fuel : Nat) (hfuel : ids.length ≤ fuel) :
    ∃ h1, stress_numa_free_nodes fuel l.heap l.node_ptr = some h1 ∧ ∀ a, h1 a = none := by
  by_cases hk : ids.length = 0
  · have hnil : ids = [] := List.length_eq_zero.mp hk
    subst hnil
    exact ⟨_, (stress_numa_free_nodes_null l hl fuel).1, (stress_numa_free_nodes_null l hl fuel).2⟩
  · rw [hl.node_ptr]
    exact stress_numa_free_nodes_ring l ids hl ids.length (by omega) (le_refl _) fuel hfuel

/-- C9: `stress_numa_get_nodes` on a directory listing returns the number `k`
of entries it accepted (names that begin with "node" followed by a digit, the
number after "node" being the node id; entries after a failed `calloc` are not
looked at), as long as `k` fits the `int` result.  When `k ≥ 1`, `*node_ptr`
is not `NULL` and points into a circular list: every node reached from it is
live, following `next` `k` times from it leads back to it and fewer steps
(more than none) do not, and the ids met on one turn from `*node_ptr` are the
accepted ids in reverse order of acceptance, a permutation of them.  When the
path cannot be opened the result is -1 and `*node_ptr` is `NULL`. -/
theorem stress_numa_get_nodes_circular (entries : List dirent) (calloc_limit : Nat)
    (hk : (discovered_ids entries calloc_limit).length < 2 ^ 31) :
    (stress_numa_get_nodes (some entries) calloc_limit).1 =
        ((discovered_ids entries calloc_limit).length : Int) ∧
    ((accepted_ids entries).length ≤ calloc_limit →
        discovered_ids entries calloc_limit = accepted_ids entries) ∧
    (1 ≤ (discovered_ids entries calloc_limit).length →
      (stress_numa_get_nodes (some entries) calloc_limit).2.node_ptr ≠ 0 ∧
      (∀ j, ∃ a nd,
        follow (stress_numa_get_nodes (some entries) calloc_limit).2.heap j
          (stress_numa_get_nodes (some entries) calloc_limit).2.node_ptr = some a ∧
        (stress_numa_get_nodes (some entries) calloc_limit).2.heap a = some nd ∧
        follow (stress_numa_get_nodes (some entries) calloc_limit).2.heap
          (discovered_ids entries calloc_limit).length a = some a ∧
        ∀ m, 0 < m → m < (discovered_ids entries calloc_limit).length →
          follow (stress_numa_get_nodes (some entries) calloc_limit).2.heap m a ≠ some a) ∧
      walk_ids (stress_numa_get_nodes (some entries) calloc_limit).2.heap
          (discovered_ids entries calloc_limit).length
          (stress_numa_get_nodes (some entries) calloc_limit).2.node_ptr =
        (discovered_ids entries calloc_limit).reverse ∧
      (walk_ids (stress_numa_get_nodes (some entries) calloc_limit).2.heap
          (discovered_ids entries calloc_limit).length
          (stress_numa_get_nodes (some entries) calloc_limit).2.node_ptr).Perm
        (discovered_ids entries calloc_limit)) ∧
    (stress_numa_get_nodes none calloc_limit).1 = -1 ∧
    (stress_numa_get_nodes none calloc_limit).2.node_ptr = 0 := by
  obtain ⟨hl, hret⟩ := stress_numa_get_nodes_some entries calloc_limit
  generalize (stress_numa_get_nodes (some entries) calloc_limit) = r at hl hret ⊢
  generalize hids : discovered_ids entries calloc_limit = ids at hl hret hk ⊢
  refine ⟨?_, ?_, ?_, rfl, rfl⟩
  · rw [hret, to_int_small _ hk]
  · intro hle
    rw [← hids]
    exact List.take_of_length_le hle
  · intro hk1
    have hr := hl.ring
    have hlen : ids.reverse.length = ids.length := List.length_reverse ids
    have hhead : r.2.node_ptr = ring_addr ids.reverse.length 0 := by
      rw [hl.node_ptr, hlen]; rfl
    have hwalk : walk_ids r.2.heap ids.length r.2.node_ptr = ids.reverse := by
      rw [hhead, ← hlen, walk_ids_ring _ _ hr _ 0 (by omega)]
      simp
    refine ⟨by rw [hl.node_ptr]; omega, ?_, hwalk, ?_⟩
    · intro j
      have hjlt : (0 + j) % ids.reverse.length < ids.reverse.length :=
        Nat.mod_lt _ (by omega)
      refine ⟨_, _, ?_, hr _ hjlt, ?_, ?_⟩
      · rw [hhead]
        exact follow_ring _ _ hr j 0 (by omega)
      · rw [← hlen, follow_ring _ _ hr _ _ hjlt, Nat.add_mod_right, Nat.mod_eq_of_lt hjlt]
      · intro m hm0 hmk
        rw [follow_ring _ _ hr _ _ hjlt]
        intro heq
        have hmlt : ((0 + j) % ids.reverse.length + m) % ids.reverse.length <
            ids.reverse.length := Nat.mod_lt _ (by omega)
        have h2 := ring_addr_inj _ _ _ hmlt hjlt (Option.some.inj heq)
        rw [mod_lt_two_mul _ _ (by omega)] at h2
        split at h2 <;> omega
    · rw [hwalk]
      exact List.reverse_perm ids

/-- C4: when `opendir` fails, or the listing has fewer than 2 accepted entries,
`stress_numa` returns `EXIT_SUCCESS`; all it does is print the message "multiple
NUMA nodes not found" (no `mmap`, no NUMA system call), `*counter` keeps its
value, and no node object is left allocated. -/
theorem stress_numa_no_op (env : NumaEnv) (max_ops counter fuel : Nat) (hfuel : 1 ≤ fuel)
    (h : env.dir = none ∨ ∃ entries, env.dir = some entries ∧ (accepted_ids entries).length < 2) :
    ∃ r, stress_numa env max_ops counter fuel = some r ∧ r.rc = EXIT_SUCCESS ∧
      r.counter = counter ∧ r.trace = [NumaEvent.pr_inf] ∧ ∀ a, r.heap a = none := by
  rcases h with hdir | ⟨entries, hdir, hlen⟩
  · obtain ⟨h1, hfree, hnone⟩ :=
      stress_numa_free_nodes_discovered NodeList.empty [] NodeListOf_empty fuel (Nat.zero_le _)
    refine ⟨⟨EXIT_SUCCESS, counter, h1, [NumaEvent.pr_inf]⟩, ?_, rfl, rfl, rfl, hnone⟩
    unfold stress_numa
    rw [hdir]
    simp only [stress_numa_get_nodes]
    rw [if_pos (by decide), hfree]
    rfl
  · obtain ⟨hl, hret⟩ := stress_numa_get_nodes_some entries env.calloc_limit
    have hk : (discovered_ids entries env.calloc_limit).length < 2 := by
      unfold discovered_ids
      rw [List.length_take]
      omega
    rw [to_int_small _ (by omega)] at hret
    obtain ⟨h1, hfree, hnone⟩ :=
      stress_numa_free_nodes_discovered _ _ hl fuel (by omega)
    refine ⟨⟨EXIT_SUCCESS, counter, h1, [NumaEvent.pr_inf]⟩, ?_, rfl, rfl, rfl, hnone⟩
    unfold stress_numa
    rw [hdir]
    generalize stress_numa_get_nodes (some entries) env.calloc_limit = r at hret hfree
    obtain ⟨r1, r2⟩ := r
    simp only at hret hfree
    simp only []
    rw [if_pos (by rw [hret]; omega), hfree]
    rfl

theorem STRESS_SETBIT_clear (i : Nat) (h : i < NODE_MASK_BITS) :
    STRESS_SETBIT mask_clear i =
      some (mask_clear.set (i / numa_lbits)
        (mask_clear.getD (i / numa_lbits) 0 ||| 1 <<< (i % numa_lbits))) := by
  have hlen : mask_clear.length = 64 := by simp [mask_clear, numa_lbits, sizeof_unsigned_long]
  have hdiv : i / numa_lbits < mask_clear.length := by
    rw [hlen]
    simp only [NODE_MASK_BITS, numa_lbits, sizeof_unsigned_long] at h ⊢
    omega
  unfold STRESS_SETBIT
  rw [if_pos hdiv]

theorem STRESS_SETBIT_clear_none (i : Nat) (h : NODE_MASK_BITS ≤ i) :
    STRESS_SETBIT mask_clear i = none := by
  have hlen : mask_clear.length = 64 := by simp [mask_clear, numa_lbits, sizeof_unsigned_long]
  have hdiv : ¬ i / numa_lbits < mask_clear.length := by
    rw [hlen]
    simp only [NODE_MASK_BITS, numa_lbits, sizeof_unsigned_long] at h ⊢
    omega
  unfold STRESS_SETBIT
  rw [if_neg hdiv]

theorem numa_policy_step_spec (env : NumaEnv) (h : Heap) (ring : List Nat) (hr : RingAt h ring)
    (max_nodes buf : Nat) (s : NumaState) (p : Nat) (hp : p < ring.length)
    (hn : s.n = ring_addr ring.length p) (hcap : ring.getD p 0 < NODE_MASK_BITS)
    (hmn : mask_holds max_nodes = true) :
    StepOk env ring.length s s.n [Call.get_mempolicy, Call.set_mempolicy]
      (numa_policy_step env h max_nodes buf s) := by
  unfold numa_policy_step
  simp only [NumaState.syscall, NumaState.emit, NumaState.check_run, NumaState.memset_buf,
    and_then, hmn, if_true]
  by_cases hr1 : env.opt_do_run s.nrun = true
  · by_cases hf1 : (env.sys s.nsys).ret < 0 <;>
    by_cases hf2 : (env.sys (s.nsys + 1)).ret < 0 <;>
    simp only [hf1, hr1, hf2, hn, hr p hp, STRESS_SETBIT_clear _ hcap, if_true, if_false,
      StepOk] <;>
    refine ⟨trivial, ⟨p, hp, rfl⟩, ?_, by omega, ?_, fun hall => hall _⟩ <;>
    simp [numa_moves, numa_calls, List.filterMap_append, List.filter_append, NumaEvent.call,
      NumaEvent.is_move_pages]
  · have hr1f : env.opt_do_run s.nrun = false := by simpa using hr1
    by_cases hf1 : (env.sys s.nsys).ret < 0 <;>
    simp only [hf1, hr1f, if_true, if_false, StepOk] <;>
    refine ⟨trivial, ⟨p, hp, hn⟩, ?_, by omega, ?_, fun hall => absurd (hall _) hr1⟩ <;>
    simp [numa_moves, numa_calls, List.filterMap_append, List.filter_append, NumaEvent.call,
      NumaEvent.is_move_pages]

theorem numa_mbind_step_spec (env : NumaEnv) (h : Heap) (ring : List Nat) (hr : RingAt h ring)
    (max_nodes buf flags pattern : Nat) (s : NumaState) (p : Nat) (hp : p < ring.length)
    (hn : s.n = ring_addr ring.length p) (hcap : ring.getD p 0 < NODE_MASK_BITS)
    (hmn : mask_holds max_nodes = true) :
    StepOk env ring.length s s.n [Call.mbind]
      (numa_mbind_step env h max_nodes buf flags pattern s) := by
  unfold numa_mbind_step
  simp only [NumaState.syscall, NumaState.emit, NumaState.check_run, NumaState.memset_buf]
  by_cases hf1 : (env.sys s.nsys).ret < 0 <;>
  by_cases he : (env.sys s.nsys).errno = EIO <;>
  simp only [hf1, he, hn, hr p hp, STRESS_SETBIT_clear _ hcap, hmn, if_true, if_false, StepOk,
    ne_eq, not_true_eq_false, not_false_eq_true] <;>
  refine ⟨trivial, ⟨p, hp, rfl⟩, ?_, by omega, ?_, fun hall => hall _⟩ <;>
  simp [numa_moves, numa_calls, List.filterMap_append, List.filter_append, NumaEvent.call,
    NumaEvent.is_move_pages]

theorem numa_migrate_step_spec (env : NumaEnv) (h : Heap) (ring : List Nat) (hr : RingAt h ring)
    (max_nodes : Nat) (s : NumaState) (p : Nat) (hp : p < ring.length)
    (hn : s.n = ring_addr ring.length p)
    (hcap : ring.getD ((p + 1) % ring.length) 0 < NODE_MASK_BITS)
    (hmn : mask_holds max_nodes = true) :
    StepOk env ring.length s (ring_addr ring.length ((p + 1) % ring.length)) [Call.migrate_pages]
      (numa_migrate_step env h max_nodes s) := by
  have hp1 : (p + 1) % ring.length < ring.length := Nat.mod_lt _ (by omega)
  unfold numa_migrate_step
  simp only [NumaState.syscall, NumaState.emit, NumaState.check_run, hn, hr p hp, hr _ hp1,
    STRESS_SETBIT_clear _ hcap, hmn, if_true]
  by_cases hf1 : (env.sys s.nsys).ret < 0 <;>
  simp only [hf1, if_true, if_false, StepOk] <;>
  refine ⟨trivial, ⟨_, hp1, rfl⟩, ?_, by omega, ?_, fun hall => hall _⟩ <;>
  simp [numa_moves, numa_calls, List.filterMap_append, List.filter_append, NumaEvent.call,
    NumaEvent.is_move_pages]

theorem StepOk_and_then (env : NumaEnv) (k : Nat) (s : NumaState) (n1 n2 : Nat)
    (cs1 cs2 : List Call) (r : Option (NumaState × Bool))
    (f : NumaState → Option (NumaState × Bool)) (h1 : StepOk env k s n1 cs1 r)
    (h2 : ∀ s1, s1.n = n1 → StepOk env k s1 n2 cs2 (f s1)) :
    StepOk env k s n2 (cs1 ++ cs2) (and_then r f) := by
  match r, h1 with
  | some (s1, true), h1 =>
    obtain ⟨a1, a2, a3, an, a4, a5⟩ := h1
    obtain ⟨a41, a42⟩ := a4 rfl
    have h3 := h2 s1 a41
    simp only [and_then]
    match hf : f s1, h3 with
    | some (s2, b), h3 =>
      obtain ⟨b1, b2, b3, bn, b4, b5⟩ := h3
      refine ⟨by rw [b1, a1], b2, by rw [b3, a3], by omega, ?_, b5⟩
      intro hb
      obtain ⟨b41, b42⟩ := b4 hb
      exact ⟨b41, by rw [b42, a42, List.append_assoc]⟩
  | some (s1, false), h1 =>
    obtain ⟨a1, a2, a3, an, a4, a5⟩ := h1
    simp only [and_then]
    refine ⟨a1, a2, a3, an, ?_, a5⟩
    intro hb; cases hb

theorem StepOk_emit (env : NumaEnv) (k : Nat) (s : NumaState) (n1 : Nat) (cs : List Call)
    (e : NumaEvent) (r : Option (NumaState × Bool)) (hc : e.call = none)
    (hm : e.is_move_pages = false) (h : StepOk env k (s.emit e) n1 cs r) :
    StepOk env k s n1 cs r := by
  have hcalls : numa_calls (s.emit e).trace = numa_calls s.trace := by
    simp [NumaState.emit, numa_calls, List.filterMap_append, hc]
  have hmoves : numa_moves (s.emit e).trace = numa_moves s.trace := by
    simp [NumaState.emit, numa_moves, List.filter_append, hm]
  match r, h with
  | some (s1, b), h =>
    obtain ⟨a1, a2, a3, an, a4, a5⟩ := h
    exact ⟨a1, a2, by rw [a3, hmoves], an, fun hb => by rw [← hcalls]; exact a4 hb, a5⟩

theorem numa_assign_pages_ring (h : Heap) (ring : List Nat) (hr : RingAt h ring)
    (page_sz count ptr q : Nat) (hq : q < ring.length) :
    numa_assign_pages h page_sz count ptr (ring_addr ring.length q) =
      some ((List.range count).map (fun i => ptr + i * page_sz),
        (List.range count).map (fun i => to_int (ring.getD ((q + i) % ring.length) 0)),
        ring_addr ring.length ((q + count) % ring.length)) := by
  induction count generalizing ptr q with
  | zero => simp [numa_assign_pages, Nat.mod_eq_of_lt hq]
  | succ count ih =>
    have hq1 : (q + 1) % ring.length < ring.length := Nat.mod_lt _ (by omega)
    rw [numa_assign_pages, hr q hq]
    simp only []
    rw [ih (ptr + page_sz) _ hq1]
    simp only [List.range_succ_eq_map, List.map_cons, List.map_map, Nat.zero_mul, Nat.add_zero,
      Nat.mod_add_mod, Nat.mod_eq_of_lt hq]
    refine congrArg some (Prod.ext ?_ (Prod.ext ?_ ?_))
    · simp only [List.cons.injEq, true_and]
      apply List.map_congr_left
      intro i _
      simp only [Function.comp, Nat.succ_eq_add_one, Nat.add_mul, Nat.one_mul]
      omega
    · simp only [List.cons.injEq, true_and]
      apply List.map_congr_left
      intro i _
      simp only [Function.comp, Nat.succ_eq_add_one]
      congr 3
      omega
    · simp only []
      congr 2
      omega

theorem RoundsOk_cons (env : NumaEnv) (ring : List Nat) (buf c j rounds : Nat)
    (s s1 : NumaState) (res : Option NumaState)
    (h1 : s1.counter = s.counter) (h2 : s1.n = s.n) (hnr : s.nrun ≤ s1.nrun)
    (h3 : numa_moves s1.trace = numa_moves s.trace ++ [numa_round_move env ring buf c j])
    (h4 : numa_calls s1.trace = numa_calls s.trace ++ [Call.move_pages])
    (h : RoundsOk env ring buf c (j + 1) rounds s1 res) :
    RoundsOk env ring buf c j (rounds + 1) s res := by
  have hshift : ∀ r, (List.range (r + 1)).map (fun i => numa_round_move env ring buf c (j + i)) =
      numa_round_move env ring buf c j ::
        (List.range r).map (fun i => numa_round_move env ring buf c (j + 1 + i)) := by
    intro r
    simp only [List.range_succ_eq_map, List.map_cons, List.map_map, Nat.add_zero]
    congr 1
    apply List.map_congr_left
    intro i _
    simp only [Function.comp, Nat.succ_eq_add_one]
    congr 1
    omega
  match res, h with
  | some s2, h =>
    obtain ⟨a1, a2, an, r, a3, a4, a5, a6⟩ := h
    refine ⟨by rw [a1, h1], by rw [a2, h2], by omega, r + 1, by omega, ?_, ?_,
      fun hall => by rw [a6 hall]⟩
    · rw [a4, h3, hshift, List.append_assoc]
      rfl
    · rw [a5, h4, List.replicate_succ, List.append_assoc]
      rfl

theorem numa_move_rounds_spec (env : NumaEnv) (h : Heap) (ring : List Nat) (hr : RingAt h ring)
    (buf c : Nat) (hL : 0 < ring.length) (rounds : Nat) :
    ∀ (j : Nat) (s : NumaState),
      RoundsOk env ring buf c j rounds s
        (numa_move_rounds env h buf (MMAP_SZ / env.page_sz) rounds j
          (ring_addr ring.length ((c + j * (MMAP_SZ / env.page_sz)) % ring.length)) s) := by
  induction rounds with
  | zero =>
    intro j s
    simp only [numa_move_rounds, RoundsOk]
    exact ⟨trivial, trivial, le_refl _, 0, le_refl _, by simp, by simp, fun _ => rfl⟩
  | succ rounds ih =>
    intro j s
    have hq : (c + j * (MMAP_SZ / env.page_sz)) % ring.length < ring.length := Nat.mod_lt _ hL
    rw [numa_move_rounds, numa_assign_pages_ring h ring hr _ _ _ _ hq]
    simp only [NumaState.syscall, NumaState.emit, NumaState.check_run, NumaState.memset_buf,
      Nat.mod_add_mod]
    have hpos : c + j * (MMAP_SZ / env.page_sz) + MMAP_SZ / env.page_sz =
        c + (j + 1) * (MMAP_SZ / env.page_sz) := by
      rw [Nat.add_mul, Nat.one_mul, Nat.add_assoc]
    rw [hpos]
    have hev : NumaEvent.move_pages env.mypid (MMAP_SZ / env.page_sz)
        (List.map (fun i => buf + i * env.page_sz) (List.range (MMAP_SZ / env.page_sz)))
        (List.map (fun i => to_int (ring.getD
          ((c + j * (MMAP_SZ / env.page_sz) + i) % ring.length) 0))
          (List.range (MMAP_SZ / env.page_sz))) MPOL_MF_MOVE =
        numa_round_move env ring buf c j := rfl
    rw [hev]
    have hmv : (numa_round_move env ring buf c j).is_move_pages = true := rfl
    have hcl : (numa_round_move env ring buf c j).call = some Call.move_pages := rfl
    by_cases hrun : env.opt_do_run s.nrun = true
    · by_cases hf : (env.sys s.nsys).ret < 0
      · simp only [hf, hrun, if_true]
        refine RoundsOk_cons env ring buf c j rounds s _ _ ?_ ?_ ?_ ?_ ?_ (ih (j + 1) _)
        · rfl
        · rfl
        · exact Nat.le_succ _
        · unfold numa_round_move
          simp [numa_moves, List.filter_append, List.filter_cons, NumaEvent.is_move_pages]
        · unfold numa_round_move
          simp [numa_calls, List.filterMap_append, List.filterMap_cons, NumaEvent.call]
      · simp only [hf, hrun, if_true, if_false]
        refine RoundsOk_cons env ring buf c j rounds s _ _ ?_ ?_ ?_ ?_ ?_ (ih (j + 1) _)
        · rfl
        · rfl
        · exact Nat.le_succ _
        · unfold numa_round_move
          simp [numa_moves, List.filter_append, List.filter_cons, NumaEvent.is_move_pages]
        · unfold numa_round_move
          simp [numa_calls, List.filterMap_append, List.filterMap_cons, NumaEvent.call]
    · have hrunf : env.opt_do_run s.nrun = false := by simpa using hrun
      by_cases hf : (env.sys s.nsys).ret < 0 <;>
      simp only [hf, hrunf, if_true, if_false, RoundsOk] <;>
      refine ⟨rfl, rfl, Nat.le_succ _, 1, by omega, ?_, ?_, fun hall => absurd (hall _) hrun⟩ <;>
      unfold numa_round_move <;>
      simp [numa_moves, numa_calls, List.filterMap_append, List.filter_append, List.filter_cons,
        List.filterMap_cons, NumaEvent.call, NumaEvent.is_move_pages, List.range_succ]

theorem and_then_assoc (r : Option (NumaState × Bool))
    (f g : NumaState → Option (NumaState × Bool)) :
    and_then r (fun s => and_then (f s) g) = and_then (and_then r f) g := by
  match r with
  | none => rfl
  | some (s, true) => rfl
  | some (s, false) => rfl

theorem IterOk_of_steps (env : NumaEnv) (h : Heap) (ring : List Nat) (hr : RingAt h ring)
    (buf max_ops p : Nat) (hL : 0 < ring.length) (s : NumaState)
    (r : Option (NumaState × Bool))
    (hsteps : StepOk env ring.length s (ring_addr ring.length ((p + 1) % ring.length))
      [Call.get_mempolicy, Call.set_mempolicy, Call.mbind, Call.mbind, Call.migrate_pages] r) :
    IterOk env ring buf max_ops p s (and_then r (numa_move_step env h buf max_ops)) := by
  have hc : (p + 1) % ring.length < ring.length := Nat.mod_lt _ hL
  match r, hsteps with
  | some (s1, false), hsteps =>
    obtain ⟨a1, a2, a3, _, a4, a5⟩ := hsteps
    simp only [and_then, IterOk]
    refine ⟨a2, (fun hb => by cases hb), ⟨0, by omega, by simpa using a3, ?_⟩, ?_⟩
    · intro hall; exact absurd (a5 hall) (by simp)
    · intro hall; exact absurd (a5 hall) (by simp)
  | some (s1, true), hsteps =>
    obtain ⟨a1, a2, a3, an, a4, a5⟩ := hsteps
    obtain ⟨a41, a42⟩ := a4 rfl
    have hrounds := numa_move_rounds_spec env h ring hr buf ((p + 1) % ring.length) hL 16 0 s1
    have hc0 : ((p + 1) % ring.length + 0 * (MMAP_SZ / env.page_sz)) % ring.length =
        (p + 1) % ring.length := by simp
    rw [hc0, ← a41] at hrounds
    simp only [and_then, numa_move_step]
    revert hrounds
    generalize numa_move_rounds env h buf (MMAP_SZ / env.page_sz) 16 0 s1.n s1 = res
    intro hrounds
    match res, hrounds with
    | some s2, hrounds =>
      obtain ⟨b1, b2, bn, k, b3, b4, b5, b6⟩ := hrounds
      simp only [IterOk]
      refine ⟨⟨_, hc, by rw [b2, a41]⟩, ?_, ⟨k, b3, ?_, b6⟩, ?_⟩
      · intro hgo
        simp only [Bool.and_eq_true, Bool.or_eq_true, beq_iff_eq, decide_eq_true_eq] at hgo
        refine ⟨by rw [b1, a1], hgo.2, by omega, ?_⟩
        simpa using hgo.1
      · rw [b4, a3]
        simp only [Nat.zero_add]
      · intro hall
        refine ⟨by rw [b2, a41], by rw [b1, a1], ?_, ?_⟩
        · rw [hall]
          simp only [Bool.true_and]
          by_cases h0 : max_ops = 0
          · simp [h0]
          · simp [h0]
        · rw [b5, a42, b6 hall]

theorem numa_iter_spec (env : NumaEnv) (h : Heap) (ring : List Nat) (hr : RingAt h ring)
    (max_nodes buf max_ops : Nat) (s : NumaState) (p : Nat) (hp : p < ring.length)
    (hn : s.n = ring_addr ring.length p) (hcapp : ring.getD p 0 < NODE_MASK_BITS)
    (hcapc : ring.getD ((p + 1) % ring.length) 0 < NODE_MASK_BITS)
    (hmn : mask_holds max_nodes = true) :
    IterOk env ring buf max_ops p s (numa_iter env h max_nodes buf max_ops s) := by
  have hL : 0 < ring.length := by omega
  unfold numa_iter
  rw [and_then_assoc, and_then_assoc, and_then_assoc]
  apply IterOk_of_steps env h ring hr buf max_ops p hL
  have hA := numa_policy_step_spec env h ring hr max_nodes buf s p hp hn hcapp hmn
  have hB1 : ∀ s1 : NumaState, s1.n = s.n → StepOk env ring.length s1 s.n [Call.mbind]
      (numa_mbind_step env h max_nodes buf MPOL_MF_STRICT 0xaa (s1.emit NumaEvent.getcpu)) := by
    intro s1 h1
    apply StepOk_emit env ring.length s1 s.n [Call.mbind] NumaEvent.getcpu _ rfl rfl
    have := numa_mbind_step_spec env h ring hr max_nodes buf MPOL_MF_STRICT 0xaa
      (s1.emit NumaEvent.getcpu) p hp (by rw [← hn, ← h1]; rfl) hcapp hmn
    rw [show (s1.emit NumaEvent.getcpu).n = s.n from h1] at this
    exact this
  have hB2 : ∀ s1 : NumaState, s1.n = s.n → StepOk env ring.length s1 s.n [Call.mbind]
      (numa_mbind_step env h max_nodes buf MPOL_DEFAULT 0x5c s1) := by
    intro s1 h1
    have := numa_mbind_step_spec env h ring hr max_nodes buf MPOL_DEFAULT 0x5c s1 p hp
      (by rw [h1, hn]) hcapp hmn
    rw [h1] at this
    exact this
  have hD : ∀ s1 : NumaState, s1.n = s.n →
      StepOk env ring.length s1 (ring_addr ring.length ((p + 1) % ring.length))
        [Call.migrate_pages] (numa_migrate_step env h max_nodes s1) := by
    intro s1 h1
    exact numa_migrate_step_spec env h ring hr max_nodes s1 p hp (by rw [h1, hn]) hcapc hmn
  have h12 := StepOk_and_then env ring.length s s.n s.n _ _ _ _ hA hB1
  have h123 := StepOk_and_then env ring.length s s.n s.n _ _ _ _ h12 hB2
  have h1234 := StepOk_and_then env ring.length s s.n _ _ _ _ _ h123 hD
  exact h1234

theorem numa_loop_succ (env : NumaEnv) (h : Heap) (max_nodes buf max_ops m : Nat)
    (s : NumaState) :
    numa_loop env h max_nodes buf max_ops (m + 1) s =
      match numa_loop env h max_nodes buf max_ops m s with
      | none => none
      | some (Run.running s1) =>
        (match numa_iter env h max_nodes buf max_ops s1 with
          | none => none
          | some (s2, true) => some (Run.running s2)
          | some (s2, false) => some (Run.exited s2))
      | some (Run.exited s1) => some (Run.exited s1) := by
  induction m generalizing s with
  | zero =>
    simp only [numa_loop]
  | succ m ih =>
    rw [numa_loop]
    match hit : numa_iter env h max_nodes buf max_ops s with
    | none => simp [numa_loop, hit]
    | some (s2, false) => simp [numa_loop, hit]
    | some (s2, true) =>
      simp only []
      rw [ih s2]
      conv_rhs => rw [numa_loop, hit]

theorem numa_loop_exited_add (env : NumaEnv) (h : Heap) (max_nodes buf max_ops m d : Nat)
    (s s1 : NumaState)
    (hex : numa_loop env h max_nodes buf max_ops m s = some (Run.exited s1)) :
    numa_loop env h max_nodes buf max_ops (m + d) s = some (Run.exited s1) := by
  induction d with
  | zero => simpa using hex
  | succ d ih => rw [← Nat.add_assoc, numa_loop_succ, ih]

theorem numa_loop_running (env : NumaEnv) (h : Heap) (ring : List Nat) (hr : RingAt h ring)
    (hcap : ∀ q, q < ring.length → ring.getD q 0 < NODE_MASK_BITS)
    (max_nodes buf max_ops : Nat) (hmax64 : max_ops < UINT64_SIZE)
    (hmn : mask_holds max_nodes = true)
    (hrun : ∀ i, env.opt_do_run i = true) (s0 : NumaState) (p0 : Nat) (hp0 : p0 < ring.length)
    (hn0 : s0.n = ring_addr ring.length p0) (hc0 : s0.counter = 0) (m : Nat)
    (hm : m < max_ops) :
    ∃ a, numa_loop env h max_nodes buf max_ops m s0 = some (Run.running a) ∧
      a.counter = m ∧ a.n = ring_addr ring.length ((p0 + m) % ring.length) ∧
      numa_calls a.trace = numa_calls s0.trace ++ (List.replicate m numa_iter_calls).flatten := by
  induction m with
  | zero =>
    refine ⟨s0, rfl, hc0, ?_, by simp⟩
    rw [hn0, Nat.add_zero, Nat.mod_eq_of_lt hp0]
  | succ m ih =>
    obtain ⟨a, ha, h1, h2, h3⟩ := ih (by omega)
    have hq : (p0 + m) % ring.length < ring.length := Nat.mod_lt _ (by omega)
    have hit := numa_iter_spec env h ring hr max_nodes buf max_ops a _ hq h2 (hcap _ hq)
      (hcap _ (Nat.mod_lt _ (by omega))) hmn
    rw [numa_loop_succ, ha]
    simp only []
    match hres : numa_iter env h max_nodes buf max_ops a, hit with
    | some (s2, go), hit =>
      obtain ⟨_, _, _, a4⟩ := hit
      obtain ⟨b1, b2, b3, b4⟩ := a4 hrun
      have hs2 : s2.counter = m + 1 := by
        rw [b2, h1]; exact Nat.mod_eq_of_lt (by omega)
      have hgo : go = true := by
        rw [b3, hs2]
        simp only [decide_eq_true_eq]
        exact Or.inr hm
      subst hgo
      refine ⟨s2, rfl, hs2, ?_, ?_⟩
      · rw [b1, Nat.mod_add_mod, Nat.add_assoc]
      · have hrep : (List.replicate (m + 1) numa_iter_calls).flatten =
            (List.replicate m numa_iter_calls).flatten ++ numa_iter_calls := by
          rw [List.replicate_succ', List.flatten_append]
          simp
        rw [b4, h3, hrep]
        simp only [numa_iter_calls, List.append_assoc]

theorem stress_numa_of_loop (env : NumaEnv) (entries : List dirent)
    (buf max_ops counter fuel : Nat) (s : NumaState)
    (hdir : env.dir = some entries)
    (hk2 : 2 ≤ (discovered_ids entries env.calloc_limit).length)
    (hk31 : (discovered_ids entries env.calloc_limit).length < 2 ^ 31)
    (hmmap : env.mmap = some buf)
    (hloop : stress_numa_loop env buf max_ops counter fuel = some (Run.exited s))
    (hin : ∃ q, q < (discovered_ids entries env.calloc_limit).length ∧
      s.n = ring_addr (discovered_ids entries env.calloc_limit).length q)
    (hfuel : (discovered_ids entries env.calloc_limit).length ≤ fuel) :
    ∃ r, stress_numa env max_ops counter fuel = some r ∧ r.rc = EXIT_SUCCESS ∧
      r.counter = s.counter ∧ r.trace = s.trace ++ [NumaEvent.munmap buf MMAP_SZ] ∧
      ∀ a, r.heap a = none := by
  obtain ⟨hl, hret⟩ := stress_numa_get_nodes_some entries env.calloc_limit
  rw [to_int_small _ hk31] at hret
  obtain ⟨q, hq, hn⟩ := hin
  obtain ⟨h1, hfree, hnone⟩ := stress_numa_free_nodes_ring _ _ hl s.n
    (by rw [hn]; unfold ring_addr; omega) (by rw [hn]; unfold ring_addr; omega) fuel hfuel
  refine ⟨⟨EXIT_SUCCESS, s.counter, h1, s.trace ++ [NumaEvent.munmap buf MMAP_SZ]⟩, ?_,
    rfl, rfl, rfl, hnone⟩
  unfold stress_numa_loop at hloop
  unfold stress_numa
  rw [hdir] at hloop ⊢
  cases hg : stress_numa_get_nodes (some entries) env.calloc_limit with
  | mk g1 g2 =>
    rw [hg] at hloop hfree hret
    simp only at hloop hfree hret
    have hg1 : ¬ g1 ≤ 1 := by rw [hret]; omega
    simp only [if_neg hg1, hmmap, hloop, hfree]
    rfl

theorem stress_numa_loop_ring (env : NumaEnv) (entries : List dirent)
    (hdir : env.dir = some entries) :
    RingAt (stress_numa_get_nodes env.dir env.calloc_limit).2.heap
      (discovered_ids entries env.calloc_limit).reverse ∧
    (stress_numa_get_nodes env.dir env.calloc_limit).2.node_ptr =
      ring_addr (discovered_ids entries env.calloc_limit).reverse.length 0 := by
  obtain ⟨hl, _⟩ := stress_numa_get_nodes_some entries env.calloc_limit
  rw [hdir]
  refine ⟨hl.ring, ?_⟩
  rw [hl.node_ptr, List.length_reverse]
  rfl

theorem numa_max_nodes_holds (k : Nat) (hk : k ≤ NODE_MASK_BITS) :
    mask_holds (numa_max_nodes (k : Int)) = true := by
  unfold mask_holds numa_max_nodes
  simp only [decide_eq_true_eq, Int.toNat_ofNat, NODE_MASK_BITS, numa_lbits,
    sizeof_unsigned_long, UINT64_SIZE] at hk ⊢
  omega

theorem node_count_lt (k : Nat) (hk : k ≤ NODE_MASK_BITS) : k < 2 ^ 31 := by
  simp only [NODE_MASK_BITS, numa_lbits, sizeof_unsigned_long] at hk
  omega

theorem stress_numa_max_nodes_holds (env : NumaEnv) (entries : List dirent)
    (hdir : env.dir = some entries)
    (hkcap : (discovered_ids entries env.calloc_limit).length ≤ NODE_MASK_BITS) :
    mask_holds (numa_max_nodes (stress_numa_get_nodes env.dir env.calloc_limit).1) = true := by
  obtain ⟨_, hret⟩ := stress_numa_get_nodes_some entries env.calloc_limit
  rw [to_int_small _ (node_count_lt _ hkcap)] at hret
  rw [hdir, hret]
  exact numa_max_nodes_holds _ hkcap

theorem ring_ids_bounded (ids : List Nat) (hids : ∀ id, id ∈ ids → id < NODE_MASK_BITS) :
    ∀ q, q < ids.reverse.length → ids.reverse.getD q 0 < NODE_MASK_BITS := by
  intro q hq
  rw [List.getD_eq_getElem _ _ hq]
  exact hids _ (List.mem_reverse.mp (List.getElem_mem _))

/-- A first pass with undefined behaviour: `stress_numa` gives no result. -/
theorem stress_numa_none_of_fault (env : NumaEnv) (buf max_ops counter : Nat)
    (hnodes : ¬ (stress_numa_get_nodes env.dir env.calloc_limit).1 ≤ 1)
    (hmmap : env.mmap = some buf)
    (hfault : numa_iter env (stress_numa_get_nodes env.dir env.calloc_limit).2.heap
      (numa_max_nodes (stress_numa_get_nodes env.dir env.calloc_limit).1) buf max_ops
      (numa_enter counter (stress_numa_get_nodes env.dir env.calloc_limit).2.node_ptr) = none)
    (fuel : Nat) : stress_numa env max_ops counter fuel = none := by
  unfold stress_numa
  cases hg : stress_numa_get_nodes env.dir env.calloc_limit with
  | mk g1 g2 =>
    rw [hg] at hnodes hfault
    simp only at hnodes hfault
    simp only [if_neg hnodes, hmmap]
    cases fuel with
    | zero => simp [numa_loop]
    | succ f => simp [numa_loop, hfault]

/-- C1 (amended): with at least 2 discovered nodes that the array `node_mask`
can hold (at most `NODE_MASK_BITS = 4096` nodes, every node id below
`NODE_MASK_BITS`), a mapped buffer, `0 < max_ops`,
`*counter = 0` on entry and a run flag that is never cleared, whatever the
kernel calls return: after `m < max_ops` passes the loop of `stress_numa` is
still running with `*counter = m`, and pass `m` issues exactly one
`get_mempolicy`, one `set_mempolicy`, two `mbind`, one `migrate_pages` and 16
`move_pages` calls, in this order; the loop is left after pass `max_ops` with
`*counter = max_ops`; and `stress_numa` returns `EXIT_SUCCESS` with
`*counter = max_ops`, the buffer unmapped and every node freed. -/
theorem stress_numa_exact_bound (env : NumaEnv) (entries : List dirent)
    (buf max_ops fuel : Nat)
    (hdir : env.dir = some entries)
    (hk2 : 2 ≤ (discovered_ids entries env.calloc_limit).length)
    (hkcap : (discovered_ids entries env.calloc_limit).length ≤ NODE_MASK_BITS)
    (hids : ∀ id, id ∈ discovered_ids entries env.calloc_limit → id < NODE_MASK_BITS)
    (hmmap : env.mmap = some buf)
    (hmax : 0 < max_ops) (hmax64 : max_ops < UINT64_SIZE)
    (hrun : ∀ i, env.opt_do_run i = true)
    (hfuel1 : max_ops ≤ fuel)
    (hfuel2 : (discovered_ids entries env.calloc_limit).length ≤ fuel) :
    (∀ m, m < max_ops →
      ∃ a b, stress_numa_loop env buf max_ops 0 m = some (Run.running a) ∧
        (stress_numa_loop env buf max_ops 0 (m + 1)).map Run.state = some b ∧
        a.counter = m ∧ b.counter = m + 1 ∧
        numa_calls b.trace = numa_calls a.trace ++ numa_iter_calls) ∧
    ∃ s r, stress_numa_loop env buf max_ops 0 max_ops = some (Run.exited s) ∧
      s.counter = max_ops ∧
      numa_calls s.trace = (List.replicate max_ops numa_iter_calls).flatten ∧
      stress_numa env max_ops 0 fuel = some r ∧ r.rc = EXIT_SUCCESS ∧ r.counter = max_ops ∧
      r.trace = s.trace ++ [NumaEvent.munmap buf MMAP_SZ] ∧ ∀ a, r.heap a = none := by
  obtain ⟨hring, hhead⟩ := stress_numa_loop_ring env entries hdir
  have hk31 := node_count_lt _ hkcap
  have hmn := stress_numa_max_nodes_holds env entries hdir hkcap
  have hlen : (discovered_ids entries env.calloc_limit).reverse.length =
      (discovered_ids entries env.calloc_limit).length := List.length_reverse _
  have hL : 0 < (discovered_ids entries env.calloc_limit).reverse.length := by omega
  have hcap := ring_ids_bounded _ hids
  have hrunning := fun m hm => numa_loop_running env _ _ hring hcap
    (numa_max_nodes (stress_numa_get_nodes env.dir env.calloc_limit).1) buf max_ops hmax64 hmn
    hrun
    (numa_enter 0 (stress_numa_get_nodes env.dir env.calloc_limit).2.node_ptr) 0 hL hhead rfl
    m hm
  have hstep : ∀ m, m < max_ops →
      ∃ a b go, stress_numa_loop env buf max_ops 0 m = some (Run.running a) ∧
        numa_iter env (stress_numa_get_nodes env.dir env.calloc_limit).2.heap
          (numa_max_nodes (stress_numa_get_nodes env.dir env.calloc_limit).1) buf max_ops a =
          some (b, go) ∧
        a.counter = m ∧ b.counter = m + 1 ∧
        numa_calls a.trace = (List.replicate m numa_iter_calls).flatten ∧
        numa_calls b.trace = numa_calls a.trace ++ numa_iter_calls ∧
        go = decide (m + 1 < max_ops) ∧
        ∃ q, q < (discovered_ids entries env.calloc_limit).length ∧
          b.n = ring_addr (discovered_ids entries env.calloc_limit).length q := by
    intro m hm
    obtain ⟨a, ha, h1, h2, h3⟩ := hrunning m hm
    have hq : (0 + m) % (discovered_ids entries env.calloc_limit).reverse.length <
        (discovered_ids entries env.calloc_limit).reverse.length := Nat.mod_lt _ hL
    have hit := numa_iter_spec env _ _ hring
      (numa_max_nodes (stress_numa_get_nodes env.dir env.calloc_limit).1) buf max_ops a _ hq h2
      (hcap _ hq) (hcap _ (Nat.mod_lt _ hL)) hmn
    match hres : numa_iter env (stress_numa_get_nodes env.dir env.calloc_limit).2.heap
      (numa_max_nodes (stress_numa_get_nodes env.dir env.calloc_limit).1) buf max_ops a, hit with
    | some (b, go), hit =>
      obtain ⟨⟨q, hq2, hbn⟩, _, _, a4⟩ := hit
      obtain ⟨b1, b2, b3, b4⟩ := a4 hrun
      have hb : b.counter = m + 1 := by
        rw [b2, h1]; exact Nat.mod_eq_of_lt (by omega)
      refine ⟨a, b, go, ha, hres, h1, hb, ?_, ?_, ?_, q, by rw [← hlen]; exact hq2,
        by rw [← hlen]; exact hbn⟩
      · simpa [numa_enter, numa_calls, NumaEvent.call] using h3
      · rw [b4]; simp only [numa_iter_calls, List.append_assoc]
      · rw [b3, hb]
        have h0 : max_ops ≠ 0 := by omega
        simp [h0]
  constructor
  · intro m hm
    obtain ⟨a, b, go, ha, hiter, h1, h2, _, h4, _, _⟩ := hstep m hm
    refine ⟨a, b, ha, ?_, h1, h2, h4⟩
    unfold stress_numa_loop at ha ⊢
    rw [numa_loop_succ, ha]
    simp only [hiter]
    cases go <;> rfl
  · obtain ⟨M, hM⟩ : ∃ M, M + 1 = max_ops := ⟨max_ops - 1, by omega⟩
    obtain ⟨a, b, go, ha, hiter, h1, h2, h3, h4, h5, hin⟩ := hstep M (by omega)
    have hb : b.counter = max_ops := by omega
    have hgo : go = false := by
      rw [h5]; simp; omega
    subst hgo
    have hexit : stress_numa_loop env buf max_ops 0 max_ops = some (Run.exited b) := by
      have hex1 : stress_numa_loop env buf max_ops 0 (M + 1) = some (Run.exited b) := by
        unfold stress_numa_loop at ha ⊢
        rw [numa_loop_succ, ha]
        simp only [hiter]
      rw [hM] at hex1
      exact hex1
    have hexit2 : stress_numa_loop env buf max_ops 0 fuel = some (Run.exited b) := by
      obtain ⟨d, rfl⟩ : ∃ d, fuel = max_ops + d := ⟨fuel - max_ops, by omega⟩
      exact numa_loop_exited_add env _ _ buf max_ops max_ops d _ _ hexit
    obtain ⟨r, hr, hrc, hcnt, htr, hheap⟩ := stress_numa_of_loop env entries buf max_ops 0 fuel b
      hdir hk2 hk31 hmmap hexit2 hin hfuel2
    refine ⟨b, r, hexit, hb, ?_, hr, hrc, by rw [hcnt, hb], htr, hheap⟩
    rw [h4, h3, ← hM, List.replicate_succ', List.flatten_append]
    simp
/-- C5: one `mbind` attempt of an outer iteration (the strict one, with flags
`MPOL_MF_STRICT` and pattern `0xaa`, or the default one, with flags
`MPOL_DEFAULT` and pattern `0x5c`; `numa_iter` runs these two, in this order),
made with `n` pointing to a live node.  When the node id is a bit of
`node_mask` and `max_nodes` is no more than the bits of `node_mask`, the call
is issued once with the mask of that node; if it fails
with `EIO`, nothing is reported and the buffer is not filled; if it fails with
another error, `pr_fail_err` reports it and the buffer is not filled; if it
succeeds, the whole buffer is filled with the pattern; in each case the
iteration goes on to the test of the run flag, which alone decides whether the
body carries on.  Otherwise the attempt has no defined outcome: setting the bit
is a store outside the array, or the call is told to read more bits than the
array has. -/
theorem numa_mbind_step_tolerates_EIO (env : NumaEnv) (h : Heap) (max_nodes buf max_ops : Nat)
    (s : NumaState) (nd : node_t) (hnode : h s.n = some nd) (flags pattern : Nat)
    (hfp : (flags = MPOL_MF_STRICT ∧ pattern = 0xaa) ∨ (flags = MPOL_DEFAULT ∧ pattern = 0x5c)) :
    (∀ s0, numa_iter env h max_nodes buf max_ops s0 =
      and_then (numa_policy_step env h max_nodes buf s0) fun s1 =>
      and_then (numa_mbind_step env h max_nodes buf MPOL_MF_STRICT 0xaa
        (s1.emit NumaEvent.getcpu)) fun s2 =>
      and_then (numa_mbind_step env h max_nodes buf MPOL_DEFAULT 0x5c s2) fun s3 =>
      and_then (numa_migrate_step env h max_nodes s3) fun s4 =>
      numa_move_step env h buf max_ops s4) ∧
    (NODE_MASK_BITS ≤ nd.node_id ∨ NODE_MASK_BITS < max_nodes →
      numa_mbind_step env h max_nodes buf flags pattern s = none) ∧
    (nd.node_id < NODE_MASK_BITS → max_nodes ≤ NODE_MASK_BITS →
      ∃ s1 node_mask, STRESS_SETBIT mask_clear nd.node_id = some node_mask ∧
        numa_mbind_step env h max_nodes buf flags pattern s =
          some (s1, env.opt_do_run s.nrun) ∧
        s1.counter = s.counter ∧ s1.n = s.n ∧ s1.nsys = s.nsys + 1 ∧
        ((env.sys s.nsys).ret < 0 → (env.sys s.nsys).errno = EIO →
          s1.buf = s.buf ∧
          s1.trace = s.trace ++ [NumaEvent.mbind buf MMAP_SZ MPOL_BIND
            (mask_bits node_mask max_nodes) max_nodes flags]) ∧
        ((env.sys s.nsys).ret < 0 → (env.sys s.nsys).errno ≠ EIO →
          s1.buf = s.buf ∧
          s1.trace = s.trace ++ [NumaEvent.mbind buf MMAP_SZ MPOL_BIND
            (mask_bits node_mask max_nodes) max_nodes flags,
            NumaEvent.pr_fail_err Call.mbind]) ∧
        (0 ≤ (env.sys s.nsys).ret →
          s1.buf = pattern ∧
          s1.trace = s.trace ++ [NumaEvent.mbind buf MMAP_SZ MPOL_BIND
            (mask_bits node_mask max_nodes) max_nodes flags,
            NumaEvent.memset buf pattern MMAP_SZ])) := by
  refine ⟨fun _ => rfl, ?_, ?_⟩
  · intro hbig
    unfold numa_mbind_step
    by_cases hcap : nd.node_id < NODE_MASK_BITS
    · have hmn : mask_holds max_nodes = false := by
        unfold mask_holds
        rw [decide_eq_false_iff_not]
        omega
      simp only [hnode, STRESS_SETBIT_clear _ hcap, hmn]
      rfl
    · simp only [hnode, STRESS_SETBIT_clear_none _ (Nat.le_of_not_lt hcap)]
  · intro hcap hmax
    have hmn : mask_holds max_nodes = true := by
      unfold mask_holds
      rw [decide_eq_true_eq]
      exact hmax
    have hpat : pattern % 256 = pattern := by
      rcases hfp with ⟨_, hp⟩ | ⟨_, hp⟩ <;> rw [hp]
    unfold numa_mbind_step
    simp only [NumaState.syscall, NumaState.emit, NumaState.check_run, NumaState.memset_buf,
      hnode, STRESS_SETBIT_clear _ hcap, hmn, if_true]
    by_cases hf1 : (env.sys s.nsys).ret < 0
    · by_cases he : (env.sys s.nsys).errno = EIO
      · simp only [hf1, he, if_true, ne_eq, not_true_eq_false, if_false]
        refine ⟨_, _, rfl, rfl, rfl, rfl, rfl, ?_, ?_, ?_⟩
        · simp
        · simp
        · intro h0; omega
      · simp only [hf1, he, if_true, ne_eq, not_false_eq_true]
        refine ⟨_, _, rfl, rfl, rfl, rfl, rfl, ?_, ?_, ?_⟩
        · simp
        · simp
        · intro h0; omega
    · simp only [hf1, if_false]
      refine ⟨_, _, rfl, rfl, rfl, rfl, rfl, ?_, ?_, ?_⟩
      · simp
      · simp
      · simp [hpat]

/-- C10: an outer iteration of `stress_numa` over the ring of `L ≥ 2`
discovered nodes, entered with the current node at ring position `p`, so that
the current node after the rotation step is at position `c = (p + 1) % L`,
the ids of these two nodes being bits of `node_mask` and `max_nodes` no more
than the bits of `node_mask` (as the calls made before the rounds need).  The
iteration has a defined result; the `move_pages` calls it issues are those of
rounds `0 .. r - 1` for some `r ≤ 16` (`r = 16` when the run flag is never
cleared); in round `j` page `i < num_pages` has address `buf + i * page_sz`
and destination the id of the node at ring position
`(c + j * num_pages + i) % L`; and when `num_pages ≥ L`, every ring position is
the destination of some page in every round. -/
theorem numa_move_pages_spread (env : NumaEnv) (entries : List dirent)
    (max_nodes buf max_ops : Nat) (s : NumaState) (p : Nat)
    (hdir : env.dir = some entries)
    (hk2 : 2 ≤ (discovered_ids entries env.calloc_limit).length)
    (hp : p < (discovered_ids entries env.calloc_limit).length)
    (hn : s.n = ring_addr (discovered_ids entries env.calloc_limit).length p)
    (hcapp : (discovered_ids entries env.calloc_limit).reverse.getD p 0 < NODE_MASK_BITS)
    (hcapc : (discovered_ids entries env.calloc_limit).reverse.getD
      ((p + 1) % (discovered_ids entries env.calloc_limit).length) 0 < NODE_MASK_BITS)
    (hmax : max_nodes ≤ NODE_MASK_BITS) :
    (∃ s2 go r,
      numa_iter env (stress_numa_get_nodes env.dir env.calloc_limit).2.heap max_nodes buf
        max_ops s = some (s2, go) ∧
      r ≤ 16 ∧
      numa_moves s2.trace = numa_moves s.trace ++
        (List.range r).map (fun j =>
          NumaEvent.move_pages env.mypid (MMAP_SZ / env.page_sz)
            (numa_round_pages buf env.page_sz (MMAP_SZ / env.page_sz))
            (numa_round_nodes (discovered_ids entries env.calloc_limit).reverse
              ((p + 1) % (discovered_ids entries env.calloc_limit).length)
              (MMAP_SZ / env.page_sz) j) MPOL_MF_MOVE) ∧
      ((∀ i, env.opt_do_run i = true) → r = 16 ∧
        s2.n = ring_addr (discovered_ids entries env.calloc_limit).length
          ((p + 1) % (discovered_ids entries env.calloc_limit).length))) ∧
    (∀ c j i, i < MMAP_SZ / env.page_sz →
      (numa_round_pages buf env.page_sz (MMAP_SZ / env.page_sz)).getD i 0 =
        buf + i * env.page_sz ∧
      (numa_round_nodes (discovered_ids entries env.calloc_limit).reverse c
          (MMAP_SZ / env.page_sz) j).getD i 0 =
        to_int ((discovered_ids entries env.calloc_limit).reverse.getD
          ((c + j * (MMAP_SZ / env.page_sz) + i) %
            (discovered_ids entries env.calloc_limit).length) 0)) ∧
    ((discovered_ids entries env.calloc_limit).length ≤ MMAP_SZ / env.page_sz →
      ∀ c j q, q < (discovered_ids entries env.calloc_limit).length →
        ∃ i, i < MMAP_SZ / env.page_sz ∧
          (c + j * (MMAP_SZ / env.page_sz) + i) %
            (discovered_ids entries env.calloc_limit).length = q) := by
  obtain ⟨hring, _⟩ := stress_numa_loop_ring env entries hdir
  have hlen : (discovered_ids entries env.calloc_limit).reverse.length =
      (discovered_ids entries env.calloc_limit).length := List.length_reverse _
  refine ⟨?_, ?_, ?_⟩
  · have hit := numa_iter_spec env _ _ hring max_nodes buf max_ops s p (by rw [hlen]; exact hp)
      (by rw [hlen]; exact hn) hcapp (by rw [hlen]; exact hcapc)
      (by unfold mask_holds; rw [decide_eq_true_eq]; exact hmax)
    match hres : numa_iter env (stress_numa_get_nodes env.dir env.calloc_limit).2.heap max_nodes
      buf max_ops s, hit with
    | some (s2, go), hit =>
      obtain ⟨_, _, ⟨r, hr16, hmoves, hall16⟩, a4⟩ := hit
      rw [hlen] at hmoves a4
      exact ⟨s2, go, r, rfl, hr16, hmoves, fun hall => ⟨hall16 hall, (a4 hall).1⟩⟩
  · intro c j i hi
    unfold numa_round_pages numa_round_nodes
    rw [List.getD_eq_getElem _ _ (by simpa using hi), List.getD_eq_getElem _ _ (by simpa using hi)]
    simp [hlen]
  · intro hnp c j q hq
    generalize (discovered_ids entries env.calloc_limit).length = L at hq hnp hk2
    have hx : (c + j * (MMAP_SZ / env.page_sz)) % L < L := Nat.mod_lt _ (by omega)
    by_cases hqx : (c + j * (MMAP_SZ / env.page_sz)) % L ≤ q
    · refine ⟨q - (c + j * (MMAP_SZ / env.page_sz)) % L, by omega, ?_⟩
      rw [← Nat.mod_add_mod, Nat.add_sub_cancel' hqx, Nat.mod_eq_of_lt hq]
    · refine ⟨q + L - (c + j * (MMAP_SZ / env.page_sz)) % L, by omega, ?_⟩
      rw [← Nat.mod_add_mod, Nat.add_sub_cancel' (by omega), Nat.add_mod_right,
        Nat.mod_eq_of_lt hq]

/-! ## The theorems on concrete inputs -/

/-- C1 (the claim fails): nodes 0 and 4294967295 are discovered, the buffer is
mapped, `max_ops = 1`, `*counter = 0` and the run flag is never cleared.  The
list head is node 4294967295, whose bit is outside the 4096 bits of
`node_mask`: the first pass stores outside the array before its first
`set_mempolicy`, so the pass has no defined result and, whatever the fuel,
`stress_numa` does not return `EXIT_SUCCESS` with `*counter = 1`. -/
theorem stress_numa_huge_id_faults :
    discovered_ids listing_huge_id numa_env_huge_id.calloc_limit = [0, 4294967295] ∧
    numa_env_huge_id.mmap = some 1048576 ∧
    (∀ i, numa_env_huge_id.opt_do_run i = true) ∧
    STRESS_SETBIT mask_clear 4294967295 = none ∧
    numa_iter numa_env_huge_id
      (stress_numa_get_nodes numa_env_huge_id.dir numa_env_huge_id.calloc_limit).2.heap
      (numa_max_nodes (stress_numa_get_nodes numa_env_huge_id.dir
        numa_env_huge_id.calloc_limit).1) 1048576 1
      (numa_enter 0 (stress_numa_get_nodes numa_env_huge_id.dir
        numa_env_huge_id.calloc_limit).2.node_ptr) = none ∧
    ∀ fuel, stress_numa numa_env_huge_id 1 0 fuel = none :=
  ⟨by decide, rfl, fun _ => rfl, by decide, by decide,
    stress_numa_none_of_fault numa_env_huge_id 1048576 1 0 (by decide) rfl (by decide)⟩

/-- Nodes 0 and 1, `max_ops = 1`: one pass, `EXIT_SUCCESS`, `*counter = 1`. -/
theorem stress_numa_exact_bound_witness :
    ∃ r, stress_numa numa_env_two_nodes 1 0 2 = some r ∧ r.rc = EXIT_SUCCESS ∧ r.counter = 1 := by
  obtain ⟨_, s, r, _, _, _, hr, hrc, hcnt, _⟩ :=
    stress_numa_exact_bound numa_env_two_nodes listing_two_nodes 1048576 1 2 rfl (by decide)
      (by decide) (by decide) rfl (by decide) (by decide) (fun _ => rfl) (by decide) (by decide)
  exact ⟨r, hr, hrc, hcnt⟩

/-- Waits that time out and succeed in turn, `max_ops = 5`: the child returns
`EXIT_SUCCESS` after 10 waits with `*counter = 5`. -/
theorem futex_waiter_exact_bound_witness :
    ∃ s, stress_futex futex_env_wakes 5 0 0 10 = some (EXIT_SUCCESS, s) ∧ s.counter = 5 ∧
      s.nsys = 10 := by
  obtain ⟨_, s, _, hc, hn, hret⟩ :=
    futex_waiter_exact_bound futex_env_wakes 5 0 0 9 (by decide) (by decide) rfl
      (fun _ => rfl)
      (fun i => by
        by_cases h : i % 2 = 0
        · left; simp [futex_env_wakes, wait_timed_out, h]
        · right; simp [futex_env_wakes, wait_succeeded, h])
      (by decide) (by decide)
  exact ⟨s, hret 10 (le_refl _), hc, hn⟩

/-- C3 (the code at the failing input): `fork` fails with `ENOMEM`, nobody
wakes the futex and the run flag is cleared after four reads.  After reporting
the error `stress_futex` falls into the branch of the child: it issues two
futex waits, which time out and take `timeout_count` from 0 to 2, and it
returns `EXIT_SUCCESS`. -/
theorem stress_futex_fork_failure_runs_waiter :
    (stress_futex futex_env_fork_fails 1 0 0 2).map
        (fun r => (r.1, r.2.counter, r.2.timeout, r.2.trace)) =
      some (EXIT_SUCCESS, 0, 2,
        [FutexEvent.fork, FutexEvent.pr_err_fork 12, FutexEvent.setpgid,
          FutexEvent.stress_parent_died_alarm, FutexEvent.futex_wait 0 0 5000,
          FutexEvent.futex_wait 0 0 5000]) := by
  decide

/-- No node directory: `stress_numa` is a no-op that succeeds. -/
theorem stress_numa_no_op_witness :
    ∃ r, stress_numa numa_env_no_dir 1 0 1 = some r ∧ r.rc = EXIT_SUCCESS ∧ r.counter = 0 ∧
      r.trace = [NumaEvent.pr_inf] ∧ ∀ a, r.heap a = none :=
  stress_numa_no_op numa_env_no_dir 1 0 1 (le_refl _) (Or.inl rfl)

/-- The strict `mbind` attempt of the first iteration on nodes 0 and 1. -/
theorem numa_mbind_step_tolerates_EIO_witness :
    ∃ s1, numa_mbind_step numa_env_two_nodes
        (stress_numa_get_nodes (some listing_two_nodes) 1024).2.heap 64 1048576
        MPOL_MF_STRICT 0xaa (numa_enter 0 2) = some (s1, true) ∧ s1.counter = 0 := by
  obtain ⟨_, _, h3⟩ :=
    numa_mbind_step_tolerates_EIO numa_env_two_nodes
      (stress_numa_get_nodes (some listing_two_nodes) 1024).2.heap 64 1048576 1
      (numa_enter 0 2) ⟨1, 1⟩ (by decide) MPOL_MF_STRICT 0xaa (Or.inl ⟨rfl, rfl⟩)
  obtain ⟨s1, _, _, h1, h2, _⟩ := h3 (by decide) (by decide)
  exact ⟨s1, h1, h2⟩

/-- The first backoff: wait number 100001 is followed by `usleep(250000)`. -/
theorem futex_waiter_backoff_witness :
    ∃ s s1, futex_waiter_loop futex_env_timeouts 0 100000
        (futex_waiter_enter (futex_init 0 0)) = Run.running s ∧
      futex_waiter_loop futex_env_timeouts 0 100001
        (futex_waiter_enter (futex_init 0 0)) = Run.running s1 ∧
      s.timeout = 100000 ∧ s1.timeout = 100001 ∧
      s1.trace = s.trace ++ [FutexEvent.futex_wait 0 0 5000, FutexEvent.usleep 250000] := by
  obtain ⟨s, s1, h1, h2, h3, _, _, h6, _, _, _, _, h10, h11, _⟩ :=
    futex_waiter_backoff futex_env_timeouts 0 (futex_init 0 0) 100000 (fun _ => rfl)
      (fun _ => ⟨(by decide : (-1 : Int) < 0), rfl⟩) (Or.inl rfl) rfl
      (by norm_num [THRESHOLD, UINT64_SIZE])
  have hk : ∃ k, 1 ≤ k ∧ 100000 + 1 = k * THRESHOLD + 1 := ⟨1, le_refl _, rfl⟩
  exact ⟨s, s1, h1, h2, h3, h6, (h11 (h10.mpr hk)).1⟩

set_option maxRecDepth 100000 in
/-- C8 (the code at the failing input): nodes 0, 8 and 252 to 255 are
discovered; the mask size is `max_nodes = 64`, computed from the number of
nodes, and is not greater than the node id 255; the first `set_mempolicy`,
whose target is node 255, is given a mask with no bit set among its first
`max_nodes` bits. -/
theorem stress_numa_sparse_ids_empty_mask :
    discovered_ids listing_sparse_nodes 1024 = [0, 8, 252, 253, 254, 255] ∧
    numa_max_nodes (stress_numa_get_nodes numa_env_sparse_nodes.dir 1024).1 = 64 ∧
    (stress_numa numa_env_sparse_nodes 1 0 6).map (fun r => r.trace.take 3) =
      some [NumaEvent.mmap MMAP_SZ, NumaEvent.get_mempolicy 64 1048576 MPOL_F_ADDR,
        NumaEvent.set_mempolicy MPOL_PREFERRED [] 64] := by
  decide

/-- A listing with nodes 0 and 1 among other entries: 2 is returned and the
list holds node 1, then node 0. -/
theorem stress_numa_get_nodes_circular_witness :
    (stress_numa_get_nodes (some listing_two_nodes) 1024).1 = 2 ∧
    walk_ids (stress_numa_get_nodes (some listing_two_nodes) 1024).2.heap 2
      (stress_numa_get_nodes (some listing_two_nodes) 1024).2.node_ptr = [1, 0] := by
  obtain ⟨h1, _, h3, _⟩ := stress_numa_get_nodes_circular listing_two_nodes 1024 (by decide)
  have hlen : (discovered_ids listing_two_nodes 1024).length = 2 := by decide
  have hids : (discovered_ids listing_two_nodes 1024).reverse = [1, 0] := by decide
  rw [hlen] at h1 h3
  exact ⟨h1, hids ▸ (h3 (by decide)).2.2.1⟩

/-- The first iteration on nodes 0 and 1 issues 16 `move_pages` calls. -/
theorem numa_move_pages_spread_witness :
    ∃ s2 go, numa_iter numa_env_two_nodes
        (stress_numa_get_nodes numa_env_two_nodes.dir numa_env_two_nodes.calloc_limit).2.heap
        64 1048576 1 (numa_enter 0 2) = some (s2, go) ∧
      (numa_moves s2.trace).length = 16 := by
  obtain ⟨⟨s2, go, r, h1, _, h3, h4⟩, _, _⟩ :=
    numa_move_pages_spread numa_env_two_nodes listing_two_nodes 64 1048576 1 (numa_enter 0 2) 0
      rfl (by decide) (by decide) (by decide) (by decide) (by decide) (by decide)
  refine ⟨s2, go, h1, ?_⟩
  rw [h3, (h4 (fun _ => rfl)).1]
  simp [numa_moves, numa_enter, NumaEvent.is_move_pages]


end StressNg
